import Mathlib

/-!
Shallow embedding of the pdf-rag-parser core pipeline
(src/phases/chunking.py and src/phases/structure.py), with theorems
checking the natural-language specification against the code.

Python strings are modelled as Lean `String` (a list of characters);
`len` is `String.length`.  Python `float` configuration values and
coordinates are modelled as `ℚ`; every comparison the claims exercise
is exact in both representations.  Python dictionaries written in
insertion order are modelled by "last write wins" lookups on lists.
-/

namespace PdfRag

/-! ## Python string primitives -/

/-- Python `str.strip()` (whitespace as recognised by `Char.isWhitespace`):
drop leading and trailing whitespace. -/
def pyStrip (s : String) : String :=
  (((s.data.dropWhile Char.isWhitespace).reverse.dropWhile
      Char.isWhitespace).reverse).asString

/-- Split a character list on runs of whitespace, dropping empty pieces:
the character-level model of Python `str.split()` with no argument.  `acc`
holds the reversed current word. -/
def splitWordsCh : List Char → List Char → List (List Char)
  | [], acc => if acc = [] then [] else [acc.reverse]
  | c :: cs, acc =>
    if c.isWhitespace then
      (if acc = [] then [] else [acc.reverse]) ++ splitWordsCh cs []
    else splitWordsCh cs (c :: acc)

/-- Python `text.split()`. -/
def pyWords (s : String) : List String :=
  (splitWordsCh s.data []).map List.asString

/-- Character-level model of `re.split(r"(?<=[.!?])\s+", text)`: a piece
ends at each whitespace run that immediately follows `.`, `!` or `?`, and
the whitespace run is consumed.  `acc` is the reversed current piece;
`mode` is 1 right after a sentence-ending punctuation character, 2 while
consuming the whitespace run of a split, 0 otherwise. -/
def splitSentCh : List Char → List Char → Nat → List (List Char)
  | [], acc, _ => [acc.reverse]
  | c :: cs, acc, mode =>
    if mode = 2 then
      if c.isWhitespace then splitSentCh cs acc 2
      else splitSentCh cs [c] (if c = '.' ∨ c = '!' ∨ c = '?' then 1 else 0)
    else if mode = 1 ∧ c.isWhitespace then
      acc.reverse :: splitSentCh cs [] 2
    else
      splitSentCh cs (c :: acc) (if c = '.' ∨ c = '!' ∨ c = '?' then 1 else 0)

/-- Model of `TextChunker._split_by_sentences`: regex split, then strip each piece and
drop the empty ones. -/
def pySplitSentences (s : String) : List String :=
  ((splitSentCh s.data [] 0).map (fun l => pyStrip l.asString)).filter
    (fun t => t ≠ "")

/-- Python `text.split("\n\n")` on the character level: non-overlapping
left-to-right cuts at each `\n\n`, the separator consumed, empty pieces
kept. -/
def splitNNCh : List Char → List Char → List (List Char)
  | [], acc => [acc.reverse]
  | '\n' :: '\n' :: rest, acc => acc.reverse :: splitNNCh rest []
  | c :: rest, acc => splitNNCh rest (c :: acc)

/-- Python `text.split("\n\n")`. -/
def pySplitNN (s : String) : List String :=
  (splitNNCh s.data []).map List.asString

/-! ## Chunking phase data model (src/phases/chunking.py) -/

/-- Configuration read by `TextChunker.__init__` (defaults from the code). -/
structure ChunkConfig where
  max_chunk_size : Nat := 800
  chunk_overlap : Nat := 0
  split_by_paragraph : Bool := true
  split_by_sentence : Bool := true
  split_by_word : Bool := true
deriving Repr, DecidableEq

/-- The `Chunk` dataclass. -/
structure Chunk where
  content : String
  chunk_num : Nat
  source_page : Nat
  source_chapter : Option String := none
  source_part : Option String := none
  char_count : Nat := 0
deriving Repr, DecidableEq

/-- Building a `Chunk` as every call site in chunking.py does (without passing
`char_count`), so `__post_init__` sets `char_count = len(content)`. -/
def mkChunk (content : String) (num page : Nat)
    (chap par : Option String) : Chunk :=
  { content := content, chunk_num := num, source_page := page,
    source_chapter := chap, source_part := par,
    char_count := content.length }

/-- The `ChunkingMetadata` dataclass (`avg_chunk_size` is a float; modelled
as `ℚ`). -/
structure ChunkingMetadata where
  total_chunks : Nat
  total_characters : Nat
  avg_chunk_size : ℚ
  min_chunk_size : Nat
  max_chunk_size : Nat
deriving Repr, DecidableEq

/-- One entry of `chapters_config`; `.get` defaults from
`TextChunker._build_chapter_map`. -/
structure ChapterConfig where
  name : String := "Unknown"
  part : String := "Unknown"
  start_page : Nat := 0
  end_page : Nat := 0
deriving Repr, DecidableEq

/-- A value of the chapter map: `{"chapter": ..., "part": ...}`. -/
structure ChapterInfo where
  chapter : String
  part : String
deriving Repr, DecidableEq

/-- The extraction-phase `TextBlock` dataclass (the chunker reads only
`content` and `page_num`; the structure phase reads the rest).
`__post_init__` sets `char_count = len(content)` when 0; the claims never
depend on `char_count` of an input block, so the field keeps its default. -/
structure TextBlock where
  content : String
  page_num : Nat
  x0 : ℚ := 0
  y0 : ℚ := 0
  x1 : ℚ := 0
  y1 : ℚ := 0
  font_name : Option String := none
  font_size : Option ℚ := none
  font_weight : Option String := none
  is_bold : Bool := false
  is_italic : Bool := false
  char_count : Nat := 0
deriving Repr, DecidableEq

/-- Model of `_build_chapter_map` followed by the dict lookup in `_get_chapter_info`:
the map entry for a page is written by every chapter whose
`start_page..end_page` range contains it, the last one winning; a missing
page yields `{"chapter": "Unknown", "part": "Unknown"}`. -/
def getChapterInfo (page : Nat) (chapters : List ChapterConfig) : ChapterInfo :=
  match chapters.reverse.find?
      (fun c => decide (c.start_page ≤ page ∧ page ≤ c.end_page)) with
  | some c => ⟨c.name, c.part⟩
  | none => ⟨"Unknown", "Unknown"⟩

/-- The chapter map built by `_build_chapter_map` is empty iff no configured
chapter has a nonempty page range. -/
def chapterMapIsEmpty (chapters : List ChapterConfig) : Bool :=
  chapters.all (fun c => decide (c.end_page < c.start_page))

/-- Loop body of `_group_blocks_by_chapter`; `curGroup`/`curCh` are
`current_group`/`current_chapter`. -/
def groupBlocksAux (chapters : List ChapterConfig) :
    List TextBlock → List TextBlock → Option String → List (List TextBlock)
  | [], curGroup, _ => if curGroup.isEmpty then [] else [curGroup]
  | b :: bs, curGroup, curCh =>
    let ch := (getChapterInfo b.page_num chapters).chapter
    match curCh with
    | none => groupBlocksAux chapters bs (curGroup ++ [b]) (some ch)
    | some c =>
      if ch = c then groupBlocksAux chapters bs (curGroup ++ [b]) (some c)
      else (if curGroup.isEmpty then [] else [curGroup]) ++
        groupBlocksAux chapters bs [b] (some ch)

/-- Model of `TextChunker._group_blocks_by_chapter`. -/
def groupBlocksByChapter (blocks : List TextBlock)
    (chapters : List ChapterConfig) : List (List TextBlock) :=
  if chapterMapIsEmpty chapters then [blocks]
  else groupBlocksAux chapters blocks [] none

/-- Loop of `TextChunker._split_by_words`; `cur` is `current_chunk`. -/
def splitByWordsAux (maxSize : Nat) : List String → String → List String
  | [], cur => if cur = "" then [] else [cur]
  | w :: ws, cur =>
    if cur.length + w.length + 1 ≤ maxSize then
      splitByWordsAux maxSize ws (if cur = "" then w else cur ++ " " ++ w)
    else
      (if cur = "" then [] else [cur]) ++ splitByWordsAux maxSize ws w

/-- Model of `TextChunker._split_by_words`. -/
def splitByWords (maxSize : Nat) (text : String) : List String :=
  splitByWordsAux maxSize (pyWords text) ""

/-- The sentence loop inside `TextChunker._chunk_text` (the oversized
paragraph branch); `para` is `para_chunk`. -/
def sentencesLoopAux (cfg : ChunkConfig) : List String → String → List String
  | [], para => if para = "" then [] else [para]
  | s :: ss, para =>
    if para.length + s.length + 1 ≤ cfg.max_chunk_size then
      sentencesLoopAux cfg ss (if para = "" then s else para ++ " " ++ s)
    else
      (if para = "" then [] else [para]) ++
      (if s.length ≤ cfg.max_chunk_size then sentencesLoopAux cfg ss s
       else
         (if cfg.split_by_word then splitByWords cfg.max_chunk_size s
          else [s]) ++ sentencesLoopAux cfg ss "")

/-- The paragraph loop of `TextChunker._chunk_text`; `cur` is
`current_chunk`. -/
def chunkTextAux (cfg : ChunkConfig) : List String → String → List String
  | [], cur => if cur = "" then [] else [cur]
  | p :: ps, cur =>
    let para := pyStrip p
    if para = "" then chunkTextAux cfg ps cur
    else if cur.length + para.length + 2 ≤ cfg.max_chunk_size then
      chunkTextAux cfg ps (if cur = "" then para else cur ++ "\n\n" ++ para)
    else
      (if cur = "" then [] else [cur]) ++
      (if para.length ≤ cfg.max_chunk_size then chunkTextAux cfg ps para
       else
         (sentencesLoopAux cfg
           (if cfg.split_by_sentence then pySplitSentences para else [para]) "")
         ++ chunkTextAux cfg ps "")

/-- Model of `TextChunker._chunk_text`. -/
def chunkText (cfg : ChunkConfig) (text : String) : List String :=
  if text = "" then []
  else if text.length ≤ cfg.max_chunk_size then [text]
  else chunkTextAux cfg
    (if cfg.split_by_paragraph then pySplitNN text else [text]) ""

/-- The `for split_content in split_chunks` loop of
`_create_chunks_from_group`: one chunk per piece, `chunk_num` stepping
by one. -/
def mkSplitChunks (num page : Nat) (ci : ChapterInfo) :
    List String → List Chunk
  | [] => []
  | s :: ss =>
    mkChunk s num page (some ci.chapter) (some ci.part) ::
      mkSplitChunks (num + 1) page ci ss

/-- Loop of `TextChunker._create_chunks_from_group`. State: `cur` is
`current_chunk_content`, `page` is `current_chunk_page`, `info` is
`current_chapter_info` (`none` = Python `None`), `num` is `chunk_num`.
The mid-loop flush reads `current_chapter_info.get(...)` without a `None`
check; Python would raise there if it were `None`, but it never is
(it is set on the very first block), so the `getD` default is inert. -/
def createChunksAux (cfg : ChunkConfig) (chapters : List ChapterConfig) :
    List TextBlock → String → Nat → Option ChapterInfo → Nat → List Chunk
  | [], cur, page, info, num =>
    if cur = "" then []
    else [mkChunk cur num page
      (some ((info.getD ⟨"Unknown", "Unknown"⟩).chapter))
      (some ((info.getD ⟨"Unknown", "Unknown"⟩).part))]
  | b :: bs, cur, page, info, num =>
    let ci := getChapterInfo b.page_num chapters
    let info' := if info.isNone then some ci else info
    let page' := if info.isNone then b.page_num else page
    let bc := pyStrip b.content
    if bc = "" then createChunksAux cfg chapters bs cur page' info' num
    else if cur.length + bc.length + 2 ≤ cfg.max_chunk_size then
      createChunksAux cfg chapters bs
        (if cur = "" then bc else cur ++ "\n\n" ++ bc) page' info' num
    else
      let flushed := if cur = "" then []
        else [mkChunk cur num page'
          (some ((info'.getD ⟨"Unknown", "Unknown"⟩).chapter))
          (some ((info'.getD ⟨"Unknown", "Unknown"⟩).part))]
      let num' := num + flushed.length
      if bc.length ≤ cfg.max_chunk_size then
        flushed ++ createChunksAux cfg chapters bs bc b.page_num info' num'
      else
        let pieces := chunkText cfg bc
        flushed ++ mkSplitChunks num' b.page_num ci pieces ++
          createChunksAux cfg chapters bs "" page' info' (num' + pieces.length)

/-- Model of `TextChunker._create_chunks_from_group`. -/
def createChunksFromGroup (cfg : ChunkConfig) (chapters : List ChapterConfig)
    (group : List TextBlock) (startNum : Nat) : List Chunk :=
  createChunksAux cfg chapters group ""
    (match group with | [] => 1 | b :: _ => b.page_num) none startNum

/-- The per-group loop of `TextChunker.run`: `chunk_num` advances by the
number of chunks each group produced. -/
def chunkerRunAux (cfg : ChunkConfig) (chapters : List ChapterConfig) :
    List (List TextBlock) → Nat → List Chunk
  | [], _ => []
  | g :: gs, num =>
    let cs := createChunksFromGroup cfg chapters g num
    cs ++ chunkerRunAux cfg chapters gs (num + cs.length)

/-- Python `min(...)` over a list (0 for the empty list, matching the
`if chunks else 0` guard in `TextChunker.run`). -/
def listMin : List Nat → Nat
  | [] => 0
  | c :: cs => cs.foldl min c

/-- Python `max(...)` over a list (0 for the empty list). -/
def listMax : List Nat → Nat
  | [] => 0
  | c :: cs => cs.foldl max c

/-- Model of `TextChunker.run`: grouping, per-group chunk creation with running
numbering starting at 1, then the metadata computation. -/
def chunkerRun (cfg : ChunkConfig) (blocks : List TextBlock)
    (chapters : List ChapterConfig) : List Chunk × ChunkingMetadata :=
  let chunks := chunkerRunAux cfg chapters (groupBlocksByChapter blocks chapters) 1
  let counts := chunks.map (fun c => c.char_count)
  let total := counts.sum
  ⟨chunks,
    { total_chunks := chunks.length
      total_characters := total
      avg_chunk_size := if chunks.isEmpty then 0 else (total : ℚ) / chunks.length
      min_chunk_size := if chunks.isEmpty then 0 else listMin counts
      max_chunk_size := if chunks.isEmpty then 0 else listMax counts }⟩

/-- A chunk content consisting of exactly one whitespace-delimited word:
nonempty and containing no whitespace at all. -/
def IsSingleWord (s : String) : Prop :=
  s ≠ "" ∧ ∀ c ∈ s.data, c.isWhitespace = false

instance (s : String) : Decidable (IsSingleWord s) :=
  inferInstanceAs (Decidable (s ≠ "" ∧ ∀ c ∈ s.data, c.isWhitespace = false))

/-- Modelled from the spec (§4.4): the `total_words` metric — "content split
on whitespace" summed over the chunk list.  chunking.py computes no such
quantity; this definition exists to compare the spec's metric against the
code's metadata. -/
def totalWords (chunks : List Chunk) : Nat :=
  (chunks.map (fun c => (pyWords c.content).length)).sum

/-! ## Structure phase data model (src/phases/structure.py) -/

/-- The `TextBlockType` enum. -/
inductive TextBlockType where
  | PART_HEADING
  | CHAPTER_HEADING
  | SECTION_HEADING
  | SUBSECTION_HEADING
  | BODY_TEXT
  | HEADER
  | FOOTER
  | UNKNOWN
deriving Repr, DecidableEq

export TextBlockType (PART_HEADING CHAPTER_HEADING SECTION_HEADING
  SUBSECTION_HEADING BODY_TEXT HEADER FOOTER UNKNOWN)

/-- One bookmark entry `{level, title, page}` from the extraction phase. -/
structure Bookmark where
  level : Nat := 0
  page : Nat := 0
  title : String := ""
deriving Repr, DecidableEq

/-- The level→type mapping in `BookmarkAnalyzer.analyze`. -/
def bookmarkLevelType (level : Nat) : TextBlockType :=
  if level = 0 then PART_HEADING
  else if level = 1 then CHAPTER_HEADING
  else if level = 2 then SECTION_HEADING
  else SUBSECTION_HEADING

/-- Lookup in the `page_to_type`/`page_to_level` dicts built by
`BookmarkAnalyzer.analyze`: both are written together per bookmark, the last
bookmark for a page winning. -/
def bookmarkFind (bookmarks : List Bookmark) (page : Nat) : Option Bookmark :=
  bookmarks.reverse.find? (fun bm => decide (bm.page = page))

/-- Configuration read by `StructurePhase.__init__` and
`HeuristicAnalyzer.__init__` (defaults from the code; float thresholds
modelled as `ℚ`). -/
structure StructConfig where
  use_bookmarks : Bool := true
  use_heuristics : Bool := true
  use_regex : Bool := true
  font_size_threshold : ℚ := 14
  heading_isolation_threshold : ℚ := 7/10
deriving Repr, DecidableEq

/-- The `font_sizes` statistic of `HeuristicAnalyzer._collect_statistics`:
sizes that are present (not `None`) and `> 0` (Python truthiness plus the
explicit `> 0` check), in block order. -/
def fontSizes (blocks : List TextBlock) : List ℚ :=
  blocks.filterMap (fun b =>
    match b.font_size with
    | some v => if 0 < v then some v else none
    | none => none)

/-- The `page_widths` statistic: per page, the maximum `x1 - x0` over the
blocks of that page; the `.get(page, 600)` default when the page never
occurs. -/
def pageWidth (blocks : List TextBlock) (page : Nat) : ℚ :=
  match (blocks.filter (fun b => decide (b.page_num = page))).map
      (fun b => b.x1 - b.x0) with
  | [] => 600
  | w :: ws => ws.foldl max w

/-- Model of `HeuristicAnalyzer._is_header_or_footer`: top/bottom 10% of a nominal
800pt page, and fewer than 100 characters. -/
def isHeaderOrFooter (b : TextBlock) : Bool :=
  (decide (b.y0 < 800 * (1/10 : ℚ)) || decide (b.y0 > 800 * (9/10 : ℚ)))
    && decide (b.content.length < 100)

/-- Model of `HeuristicAnalyzer._is_isolated` for the block at index `idx`. -/
def isIsolated (blocks : List TextBlock) (idx : Nat) (b : TextBlock) : Bool :=
  let before :=
    decide (idx = 0) ||
      (match blocks.get? (idx - 1) with
       | some pb => decide (pb.page_num ≠ b.page_num) || decide (|pb.y1 - b.y0| > 20)
       | none => true)
  let after :=
    decide (idx = blocks.length - 1) ||
      (match blocks.get? (idx + 1) with
       | some nb => decide (nb.page_num ≠ b.page_num) || decide (|b.y1 - nb.y0| > 20)
       | none => true)
  before && after

/-- Model of `HeuristicAnalyzer._is_centered`: midpoint within 10% of the page's
observed width midpoint. -/
def isCentered (blocks : List TextBlock) (b : TextBlock) : Bool :=
  let pw := pageWidth blocks b.page_num
  decide (|(b.x0 + b.x1) / 2 - pw / 2| < pw * (1/10 : ℚ))

/-- The `is_large_font` signal: `block.font_size and block.font_size >=
threshold` — a missing or zero size is falsy (a `None` size would in fact
make Python's later `sum(...)` raise; the model takes the signal as false,
which is the only consistent total reading and is unreachable from the
claims' inputs). -/
def isLargeFont (cfg : StructConfig) (b : TextBlock) : Bool :=
  match b.font_size with
  | some v => decide (v ≠ 0) && decide (cfg.font_size_threshold ≤ v)
  | none => false

/-- Number of true signals, `sum([...])` over the four booleans. -/
def countTrue (l : List Bool) : Nat := (l.filter (fun x => x = true)).length

/-- The heading score `sum([...]) / 4.0` of
`HeuristicAnalyzer._classify_block`. -/
def heuristicScore (cfg : StructConfig) (blocks : List TextBlock)
    (idx : Nat) (b : TextBlock) : ℚ :=
  (countTrue [isLargeFont cfg b, b.is_bold, isIsolated blocks idx b,
    isCentered blocks b] : ℚ) / 4

/-- Model of `HeuristicAnalyzer._determine_heading_level`: percentile rank of the
block's font size (first index in the sorted size list over its length).
Python's `list.index` raises when the size is absent (impossible for the
sizes the statistics pass collected); the model then yields the list length,
i.e. percentile 1. -/
def determineHeadingLevel (blocks : List TextBlock) (b : TextBlock) : Nat :=
  match b.font_size with
  | none => 3
  | some v =>
    if v = 0 then 3
    else
      let sizes := fontSizes blocks
      if sizes = [] then 3
      else
        let sorted := sizes.insertionSort (fun a c => a ≤ c)
        let pct : ℚ := (sorted.indexOf v : ℚ) / (sorted.length : ℚ)
        if (9/10 : ℚ) ≤ pct then 0
        else if (3/4 : ℚ) ≤ pct then 1
        else if (3/5 : ℚ) ≤ pct then 2
        else 3

/-- Model of `HeuristicAnalyzer._get_heading_type` (`level_map.get(level,
BODY_TEXT)`). -/
def getHeadingType (level : Nat) : TextBlockType :=
  match level with
  | 0 => PART_HEADING
  | 1 => CHAPTER_HEADING
  | 2 => SECTION_HEADING
  | 3 => SUBSECTION_HEADING
  | _ => BODY_TEXT

/-- Model of `HeuristicAnalyzer._classify_block`. -/
def heuristicClassify (cfg : StructConfig) (blocks : List TextBlock)
    (idx : Nat) (b : TextBlock) : TextBlockType × Nat :=
  if isHeaderOrFooter b then
    (if b.y0 < 100 then HEADER else FOOTER, 0)
  else if cfg.heading_isolation_threshold ≤ heuristicScore cfg blocks idx b then
    let level := determineHeadingLevel blocks b
    (getHeadingType level, level)
  else (BODY_TEXT, 0)

/-- Model of `HeuristicAnalyzer.analyze`: classify each block with its index. -/
def heuristicAll (cfg : StructConfig) (blocks : List TextBlock) :
    List (TextBlockType × Nat) :=
  blocks.enum.map (fun p => heuristicClassify cfg blocks p.1 p.2)

/-! ### Regex pattern matchers (RegexAnalyzer._build_patterns)

Each matcher consumes a prefix of the character list, mirroring `re.match`
(anchored at the start, the remainder unconstrained).  `+`/`*` repetitions
take the maximal run, which coincides with the regex since every repetition
here is followed by a character its class cannot match. -/

/-- Consume a literal, case-insensitively (`re.IGNORECASE`). -/
def eatLiteralCI : List Char → List Char → Option (List Char)
  | [], s => some s
  | _ :: _, [] => none
  | p :: ps, c :: cs => if p.toLower = c.toLower then eatLiteralCI ps cs else none

/-- Consume `\s+`. -/
def eatWs1 : List Char → Option (List Char)
  | [] => none
  | c :: cs =>
    if c.isWhitespace then some (cs.dropWhile Char.isWhitespace) else none

/-- Consume `\s*`. -/
def eatWs0 (s : List Char) : List Char := s.dropWhile Char.isWhitespace

/-- Consume a nonempty maximal run of a character class (`[..]+`/`\d+`). -/
def eatClass1 (p : Char → Bool) : List Char → Option (List Char)
  | [] => none
  | c :: cs => if p c then some (cs.dropWhile p) else none

/-- Consume one exact character. -/
def eatChar (ch : Char) : List Char → Option (List Char)
  | [] => none
  | c :: cs => if c = ch then some cs else none

/-- Model of `[IVX]` under `re.IGNORECASE`. -/
def isRomanChar (c : Char) : Bool := c.toLower = 'i' || c.toLower = 'v' || c.toLower = 'x'

/-- Model of `^Part\s+[IVX]+\s*:` (IGNORECASE). -/
def partPattern1 (s : List Char) : Bool :=
  (((eatLiteralCI "Part".data s).bind eatWs1).bind (eatClass1 isRomanChar)
    |>.map eatWs0 |>.bind (eatChar ':')).isSome

/-- Model of `^Part\s+\d+\s*:` (IGNORECASE). -/
def partPattern2 (s : List Char) : Bool :=
  (((eatLiteralCI "Part".data s).bind eatWs1).bind (eatClass1 Char.isDigit)
    |>.map eatWs0 |>.bind (eatChar ':')).isSome

/-- Model of `^Chapter\s+\d+\s*:` (IGNORECASE). -/
def chapterPattern1 (s : List Char) : Bool :=
  (((eatLiteralCI "Chapter".data s).bind eatWs1).bind (eatClass1 Char.isDigit)
    |>.map eatWs0 |>.bind (eatChar ':')).isSome

/-- Model of `^Ch\.\s+\d+\s*:` (IGNORECASE). -/
def chapterPattern2 (s : List Char) : Bool :=
  (((eatLiteralCI "Ch.".data s).bind eatWs1).bind (eatClass1 Char.isDigit)
    |>.map eatWs0 |>.bind (eatChar ':')).isSome

/-- Model of `^\d+\.\d+\s+`. -/
def sectionPattern1 (s : List Char) : Bool :=
  ((((eatClass1 Char.isDigit s).bind (eatChar '.')).bind
    (eatClass1 Char.isDigit)).bind eatWs1).isSome

/-- Model of `^Section\s+\d+\s*:` (IGNORECASE). -/
def sectionPattern2 (s : List Char) : Bool :=
  (((eatLiteralCI "Section".data s).bind eatWs1).bind (eatClass1 Char.isDigit)
    |>.map eatWs0 |>.bind (eatChar ':')).isSome

/-- Model of `^\d+\.\d+\.\d+\s+`. -/
def subsectionPattern1 (s : List Char) : Bool :=
  ((((((eatClass1 Char.isDigit s).bind (eatChar '.')).bind
    (eatClass1 Char.isDigit)).bind (eatChar '.')).bind
    (eatClass1 Char.isDigit)).bind eatWs1).isSome

/-- Model of `RegexAnalyzer._get_level`. -/
def regexLevel (t : TextBlockType) : Nat :=
  match t with
  | PART_HEADING => 0
  | CHAPTER_HEADING => 1
  | SECTION_HEADING => 2
  | SUBSECTION_HEADING => 3
  | _ => 0

/-- Model of `RegexAnalyzer._classify_block`: strip, then try the pattern groups in
dict insertion order (part, chapter, section, subsection), first match
winning. -/
def regexClassify (b : TextBlock) : TextBlockType × Nat :=
  let content := (pyStrip b.content).data
  if partPattern1 content || partPattern2 content then
    (PART_HEADING, regexLevel PART_HEADING)
  else if chapterPattern1 content || chapterPattern2 content then
    (CHAPTER_HEADING, regexLevel CHAPTER_HEADING)
  else if sectionPattern1 content || sectionPattern2 content then
    (SECTION_HEADING, regexLevel SECTION_HEADING)
  else if subsectionPattern1 content then
    (SUBSECTION_HEADING, regexLevel SUBSECTION_HEADING)
  else (BODY_TEXT, 0)

/-- Model of `RegexAnalyzer.analyze`. -/
def regexAll (blocks : List TextBlock) : List (TextBlockType × Nat) :=
  blocks.map regexClassify

/-- The "fill only if UNKNOWN" merge of `StructurePhase.run`: for each index,
a pass may overwrite the (type, level) pair only when the type is still
UNKNOWN. -/
def overrideUnknown :
    List (TextBlockType × Nat) → List (TextBlockType × Nat) →
      List (TextBlockType × Nat)
  | [], _ => []
  | _ :: _, [] => []
  | c :: cs, h :: hs =>
    (if c.1 = UNKNOWN then h else c) :: overrideUnknown cs hs

/-- The bookmark pass of `StructurePhase.run`: blocks whose page is in the
bookmark map get its (type, raw level), the rest stay (UNKNOWN, 0). -/
def bookmarkPass (bookmarks : List Bookmark) (blocks : List TextBlock) :
    List (TextBlockType × Nat) :=
  blocks.map (fun b =>
    match bookmarkFind bookmarks b.page_num with
    | some bm => (bookmarkLevelType bm.level, bm.level)
    | none => (UNKNOWN, 0))

/-- The classification part of `StructurePhase.run`: initial all-UNKNOWN
array, then the three passes guarded by their flags, then the finalization
that downgrades UNKNOWN to (BODY_TEXT, 0). -/
def classifyTypes (cfg : StructConfig) (blocks : List TextBlock)
    (bookmarks : List Bookmark) : List (TextBlockType × Nat) :=
  let init : List (TextBlockType × Nat) := blocks.map (fun _ => (UNKNOWN, 0))
  let afterBm :=
    if cfg.use_bookmarks ∧ bookmarks ≠ [] then bookmarkPass bookmarks blocks
    else init
  let afterHeu :=
    if cfg.use_heuristics then overrideUnknown afterBm (heuristicAll cfg blocks)
    else afterBm
  let afterRe :=
    if cfg.use_regex then overrideUnknown afterHeu (regexAll blocks)
    else afterHeu
  afterRe.map (fun c => if c.1 = UNKNOWN then (BODY_TEXT, 0) else c)

/-- The `StructuredTextBlock` dataclass. -/
structure StructuredTextBlock where
  content : String
  page_num : Nat
  x0 : ℚ := 0
  y0 : ℚ := 0
  x1 : ℚ := 0
  y1 : ℚ := 0
  block_type : TextBlockType
  font_name : Option String := none
  font_size : Option ℚ := none
  font_weight : Option String := none
  is_bold : Bool := false
  is_italic : Bool := false
  char_count : Nat := 0
  hierarchy_level : Nat := 0
  parent_heading : Option String := none
deriving Repr, DecidableEq

/-- Python truthiness of an optional heading string: `None` and `""` are
falsy. -/
def truthy : Option String → Bool
  | some s => s ≠ ""
  | none => false

/-- The parent-heading cascade of `StructurePhase._create_structured_blocks`:
`if current_section: ... elif current_chapter: ... elif current_part: ...`. -/
def parentCascade (sect chap par : Option String) : Option String :=
  if truthy sect then sect
  else if truthy chap then chap
  else if truthy par then par
  else none

/-- Loop of `StructurePhase._create_structured_blocks`; walks blocks and
(type, level) pairs in lockstep (Python `zip`), threading the
current_part/chapter/section pointers.  Pointer updates happen before the
parent-heading computation, exactly as in the code. -/
def createStructuredAux :
    List TextBlock → List (TextBlockType × Nat) →
      Option String → Option String → Option String → List StructuredTextBlock
  | b :: bs, (t, lvl) :: ts, par, chap, sect =>
    let par' := if t = PART_HEADING then some b.content else par
    let chap' :=
      if t = PART_HEADING then none
      else if t = CHAPTER_HEADING then some b.content
      else chap
    let sect' :=
      if t = PART_HEADING ∨ t = CHAPTER_HEADING then none
      else if t = SECTION_HEADING then some b.content
      else sect
    let parent := if t = BODY_TEXT then parentCascade sect' chap' par' else none
    { content := b.content, page_num := b.page_num,
      x0 := b.x0, y0 := b.y0, x1 := b.x1, y1 := b.y1,
      block_type := t, font_name := b.font_name, font_size := b.font_size,
      font_weight := b.font_weight, is_bold := b.is_bold,
      is_italic := b.is_italic, char_count := b.char_count,
      hierarchy_level := lvl, parent_heading := parent } ::
      createStructuredAux bs ts par' chap' sect'
  | _, _, _, _, _ => []

/-- Model of `StructurePhase._create_structured_blocks`. -/
def createStructuredBlocks (blocks : List TextBlock)
    (types : List (TextBlockType × Nat)) : List StructuredTextBlock :=
  createStructuredAux blocks types none none none

/-! ### Hierarchy tree (`StructurePhase._build_hierarchy`)

The Python code builds the tree by mutating dicts that are already inside
the `hierarchy` list.  Every mutation targets the most recently appended
root entry (`current_part` is always the last part appended, a root-level
`current_chapter` is always the last root entry, and an in-part chapter is
always the last chapter of the open part), so the functional model keeps the
finished root entries in `closed` and the single still-mutable one in
`top`.  `chapOpen` mirrors `current_chapter is not None`. -/

/-- A section leaf `{"type": "section", "title", "page"}`. -/
structure SectNode where
  title : String
  page : Nat
deriving Repr, DecidableEq

/-- A chapter node; the implicit "Unnamed Chapter" dict carries no page key,
hence the optional page. -/
structure ChapNode where
  title : String
  page : Option Nat
  secs : List SectNode
deriving Repr, DecidableEq

/-- A root entry of the hierarchy list: a part (with chapters) or a
chapter appended at root when no part was open. -/
inductive RootNode where
  | part (title : String) (page : Nat) (chapters : List ChapNode)
  | chapter (c : ChapNode)
deriving Repr, DecidableEq

/-- Append a section to the last chapter of a chapter list
(`current_part["chapters"][-1]["sections"].append(...)`); a no-op on an
empty list, which is unreachable in the code. -/
def appendToLastChap (chs : List ChapNode) (s : SectNode) : List ChapNode :=
  match chs with
  | [] => []
  | [c] => [{ c with secs := c.secs ++ [s] }]
  | c :: rest => c :: appendToLastChap rest s

/-- The mutable state of `_build_hierarchy`. -/
structure HierState where
  closed : List RootNode := []
  top : Option RootNode := none
  chapOpen : Bool := false
deriving Repr, DecidableEq

/-- One iteration of the `_build_hierarchy` loop. -/
def stepHierarchy (s : HierState) (b : StructuredTextBlock) : HierState :=
  match b.block_type with
  | PART_HEADING =>
    { closed := s.closed ++ s.top.toList,
      top := some (.part b.content b.page_num []), chapOpen := false }
  | CHAPTER_HEADING =>
    match s.top with
    | some (.part t p chs) =>
      { closed := s.closed,
        top := some (.part t p (chs ++ [⟨b.content, some b.page_num, []⟩])),
        chapOpen := true }
    | _ =>
      { closed := s.closed ++ s.top.toList,
        top := some (.chapter ⟨b.content, some b.page_num, []⟩),
        chapOpen := true }
  | SECTION_HEADING =>
    let sect : SectNode := ⟨b.content, b.page_num⟩
    if s.chapOpen then
      match s.top with
      | some (.part t p chs) =>
        { s with top := some (.part t p (appendToLastChap chs sect)) }
      | some (.chapter c) =>
        { s with top := some (.chapter { c with secs := c.secs ++ [sect] }) }
      | none => s
    else
      match s.top with
      | some (.part t p chs) =>
        if chs = [] then
          { s with top := some (.part t p [⟨"Unnamed Chapter", none, [sect]⟩]) }
        else { s with top := some (.part t p (appendToLastChap chs sect)) }
      | _ => s
  | _ => s

/-- Model of `StructurePhase._build_hierarchy`. -/
def buildHierarchy (blocks : List StructuredTextBlock) : List RootNode :=
  let s := blocks.foldl stepHierarchy {}
  s.closed ++ s.top.toList

/-- The `StructureMetadata` dataclass (`analysis_timestamp` is
`datetime.now().isoformat()`, an external input threaded as a parameter). -/
structure StructureMetadata where
  total_blocks : Nat
  classified_blocks : Nat
  parts_found : Nat
  chapters_found : Nat
  sections_found : Nat
  structure_method : String
  analysis_timestamp : String
  hierarchy : List RootNode := []
deriving Repr, DecidableEq

/-- Model of `StructurePhase.run`.  `now` models the `datetime.now().isoformat()`
call in `_get_timestamp`. -/
def structureRun (cfg : StructConfig) (blocks : List TextBlock)
    (bookmarks : List Bookmark) (now : String) :
    List StructuredTextBlock × StructureMetadata :=
  let types := classifyTypes cfg blocks bookmarks
  let structured := createStructuredBlocks blocks types
  let methods :=
    (if cfg.use_bookmarks ∧ bookmarks ≠ [] then ["bookmarks"] else []) ++
    (if cfg.use_heuristics then ["heuristics"] else []) ++
    (if cfg.use_regex then ["regex"] else [])
  ⟨structured,
    { total_blocks := blocks.length
      classified_blocks := (types.filter (fun c =>
        c.1 ≠ BODY_TEXT ∧ c.1 ≠ HEADER ∧ c.1 ≠ FOOTER)).length
      parts_found := (types.filter (fun c => c.1 = PART_HEADING)).length
      chapters_found := (types.filter (fun c => c.1 = CHAPTER_HEADING)).length
      sections_found := (types.filter (fun c => c.1 = SECTION_HEADING)).length
      structure_method := String.intercalate "+" methods
      analysis_timestamp := now
      hierarchy := buildHierarchy structured }⟩

/-- The fixed type→level mapping of the spec (part 0, chapter 1, section 2,
subsection 3, everything else 0). -/
def typeLevel (t : TextBlockType) : Nat :=
  match t with
  | PART_HEADING => 0
  | CHAPTER_HEADING => 1
  | SECTION_HEADING => 2
  | SUBSECTION_HEADING => 3
  | _ => 0

/-- A heading type in the sense of the spec glossary. -/
def isHeadingType : TextBlockType → Bool
  | PART_HEADING | CHAPTER_HEADING | SECTION_HEADING | SUBSECTION_HEADING => true
  | _ => false

/-- Title of a root entry of the hierarchy. -/
def rootTitle : RootNode → String
  | .part t _ _ => t
  | .chapter c => c.title

/-- The root list of the hierarchy as it stands: finalized entries plus the
still-open one. -/
def rootEntries (s : HierState) : List RootNode :=
  s.closed ++ s.top.toList

/-- Reachability invariant of the `_build_hierarchy` state: while no chapter
is open, the chapter list of an open part is empty or ends in the implicit
"Unnamed Chapter". -/
def hierInv (s : HierState) : Prop :=
  s.chapOpen = false →
    ∀ t p chs, s.top = some (.part t p chs) →
      chs = [] ∨ ∃ c, chs.getLast? = some c ∧ c.title = "Unnamed Chapter"

/-- Example input (spec §8): an 18pt bold centered vertically isolated block
on an otherwise 12pt page. -/
def exHeadingBlock : TextBlock :=
  { content := "Big Heading", page_num := 1, x0 := 0, y0 := 300, x1 := 600,
    y1 := 330, font_size := some 18, is_bold := true }

/-- Example input: a 12pt body block right below another body block. -/
def exBodyBlockOne : TextBlock :=
  { content := "body one", page_num := 1, x0 := 0, y0 := 360, x1 := 600,
    y1 := 380, font_size := some 12 }

/-- Example input: the second 12pt body block. -/
def exBodyBlockTwo : TextBlock :=
  { content := "body two", page_num := 1, x0 := 0, y0 := 385, x1 := 600,
    y1 := 400, font_size := some 12 }

/-- The oversized single-word chunk the C1 witness run emits. -/
def exOversizedChunk : Chunk :=
  { content := "extravaganza", chunk_num := 2, source_page := 1,
    source_chapter := some "Unknown", source_part := some "Unknown",
    char_count := 12 }

/-- The single chunk the C10 witness run emits. -/
def exHelloChunk : Chunk :=
  { content := "hello", chunk_num := 1, source_page := 1,
    source_chapter := some "Unknown", source_part := some "Unknown",
    char_count := 5 }

/-! ## Helper lemmas: words and single-word pieces -/

theorem splitWordsCh_mem :
    ∀ (l acc : List Char), (∀ c ∈ acc, c.isWhitespace = false) →
      ∀ w ∈ splitWordsCh l acc, w ≠ [] ∧ ∀ c ∈ w, c.isWhitespace = false := by
  intro l
  induction l with
  | nil =>
    intro acc hacc w hw
    by_cases h : acc = []
    · rw [splitWordsCh, if_pos h] at hw; simp at hw
    · rw [splitWordsCh, if_neg h] at hw
      simp only [List.mem_singleton] at hw
      subst hw
      refine ⟨by simpa using h, ?_⟩
      intro c hc
      exact hacc c (List.mem_reverse.mp hc)
  | cons c cs ih =>
    intro acc hacc w hw
    rw [splitWordsCh] at hw
    by_cases hws : c.isWhitespace
    · rw [if_pos hws] at hw
      rcases List.mem_append.mp hw with hw | hw
      · by_cases h : acc = []
        · rw [if_pos h] at hw; simp at hw
        · rw [if_neg h] at hw
          simp only [List.mem_singleton] at hw
          subst hw
          refine ⟨by simpa using h, ?_⟩
          intro d hd
          exact hacc d (List.mem_reverse.mp hd)
      · exact ih [] (by simp) w hw
    · rw [if_neg hws] at hw
      refine ih (c :: acc) ?_ w hw
      intro d hd
      rcases List.mem_cons.mp hd with rfl | hd
      · simpa using hws
      · exact hacc d hd

theorem pyWords_mem (s : String) : ∀ w ∈ pyWords s, IsSingleWord w := by
  intro w hw
  rcases List.mem_map.mp hw with ⟨wl, hwl, rfl⟩
  rcases splitWordsCh_mem s.data [] (by simp) wl hwl with ⟨hne, hnw⟩
  refine ⟨?_, ?_⟩
  · intro h
    exact hne (by simpa using congrArg String.data h)
  · intro c hc
    exact hnw c hc

theorem length_sep_append (a sep b : String) :
    (a ++ sep ++ b).length = a.length + sep.length + b.length := by
  simp [String.length_append]

theorem ne_empty_of_max_lt {s : String} {n : Nat} (h : ¬ s.length ≤ n) : s ≠ "" := by
  intro he
  subst he
  exact h (Nat.zero_le n)

/-! ## Helper lemmas: every chunk respects the size bound or is one word -/

theorem splitByWordsAux_sound (maxSize : Nat) :
    ∀ (ws : List String) (cur : String),
      (∀ w ∈ ws, IsSingleWord w) →
      (cur = "" ∨ cur.length ≤ maxSize ∨ IsSingleWord cur) →
      ∀ c ∈ splitByWordsAux maxSize ws cur,
        c.length ≤ maxSize ∨ IsSingleWord c := by
  intro ws
  induction ws with
  | nil =>
    intro cur hws hcur c hc
    by_cases h : cur = ""
    · rw [splitByWordsAux, if_pos h] at hc
      simp at hc
    · rw [splitByWordsAux, if_neg h] at hc
      simp at hc
      subst hc
      rcases hcur with h1 | h1 | h1
      · exact absurd h1 h
      · exact Or.inl h1
      · exact Or.inr h1
  | cons w ws ih =>
    intro cur hws hcur c hc
    rw [splitByWordsAux] at hc
    by_cases hg : cur.length + w.length + 1 ≤ maxSize
    · rw [if_pos hg] at hc
      refine ih _ (fun v hv => hws v (List.mem_cons_of_mem _ hv)) ?_ c hc
      by_cases hce : cur = ""
      · rw [if_pos hce]
        subst hce
        right; left
        have h0 : ("" : String).length = 0 := rfl
        omega
      · rw [if_neg hce]
        right; left
        have hsp : (" " : String).length = 1 := rfl
        have : (cur ++ " " ++ w).length = cur.length + 1 + w.length := by
          rw [length_sep_append, hsp]
        omega
    · rw [if_neg hg] at hc
      rcases List.mem_append.mp hc with hc | hc
      · by_cases hce : cur = ""
        · rw [if_pos hce] at hc; simp at hc
        · rw [if_neg hce] at hc
          simp at hc
          subst hc
          rcases hcur with h1 | h1 | h1
          · exact absurd h1 hce
          · exact Or.inl h1
          · exact Or.inr h1
      · exact ih _ (fun v hv => hws v (List.mem_cons_of_mem _ hv))
          (Or.inr (Or.inr (hws w (List.mem_cons_self _ _)))) c hc

theorem splitByWords_sound (maxSize : Nat) (text : String) :
    ∀ c ∈ splitByWords maxSize text,
      c.length ≤ maxSize ∨ IsSingleWord c := by
  intro c hc
  exact splitByWordsAux_sound maxSize (pyWords text) "" (pyWords_mem text)
    (Or.inl rfl) c hc

theorem sentencesLoopAux_sound (cfg : ChunkConfig)
    (hw : cfg.split_by_word = true) :
    ∀ (ss : List String) (para : String),
      (para = "" ∨ para.length ≤ cfg.max_chunk_size) →
      ∀ c ∈ sentencesLoopAux cfg ss para,
        c.length ≤ cfg.max_chunk_size ∨ IsSingleWord c := by
  intro ss
  induction ss with
  | nil =>
    intro para hpara c hc
    by_cases h : para = ""
    · rw [sentencesLoopAux, if_pos h] at hc; simp at hc
    · rw [sentencesLoopAux, if_neg h] at hc
      simp at hc
      subst hc
      rcases hpara with h1 | h1
      · exact absurd h1 h
      · exact Or.inl h1
  | cons s ss ih =>
    intro para hpara c hc
    rw [sentencesLoopAux] at hc
    by_cases hg : para.length + s.length + 1 ≤ cfg.max_chunk_size
    · rw [if_pos hg] at hc
      refine ih _ ?_ c hc
      by_cases hpe : para = ""
      · rw [if_pos hpe]
        subst hpe
        right
        have h0 : ("" : String).length = 0 := rfl
        omega
      · rw [if_neg hpe]
        right
        have hsp : (" " : String).length = 1 := rfl
        have : (para ++ " " ++ s).length = para.length + 1 + s.length := by
          rw [length_sep_append, hsp]
        omega
    · rw [if_neg hg] at hc
      rcases List.mem_append.mp hc with hc | hc
      · by_cases hpe : para = ""
        · rw [if_pos hpe] at hc; simp at hc
        · rw [if_neg hpe] at hc
          simp at hc
          subst hc
          rcases hpara with h1 | h1
          · exact absurd h1 hpe
          · exact Or.inl h1
      · by_cases hs : s.length ≤ cfg.max_chunk_size
        · rw [if_pos hs] at hc
          exact ih _ (Or.inr hs) c hc
        · rw [if_neg hs] at hc
          rcases List.mem_append.mp hc with hc | hc
          · rw [hw, if_pos rfl] at hc
            exact splitByWords_sound cfg.max_chunk_size s c hc
          · exact ih _ (Or.inl rfl) c hc

theorem chunkTextAux_sound (cfg : ChunkConfig)
    (hw : cfg.split_by_word = true) :
    ∀ (ps : List String) (cur : String),
      (cur = "" ∨ cur.length ≤ cfg.max_chunk_size) →
      ∀ c ∈ chunkTextAux cfg ps cur,
        c.length ≤ cfg.max_chunk_size ∨ IsSingleWord c := by
  intro ps
  induction ps with
  | nil =>
    intro cur hcur c hc
    by_cases h : cur = ""
    · rw [chunkTextAux, if_pos h] at hc; simp at hc
    · rw [chunkTextAux, if_neg h] at hc
      simp at hc
      subst hc
      rcases hcur with h1 | h1
      · exact absurd h1 h
      · exact Or.inl h1
  | cons p ps ih =>
    intro cur hcur c hc
    rw [chunkTextAux] at hc
    by_cases hpe : pyStrip p = ""
    · rw [if_pos hpe] at hc
      exact ih cur hcur c hc
    · rw [if_neg hpe] at hc
      by_cases hg : cur.length + (pyStrip p).length + 2 ≤ cfg.max_chunk_size
      · rw [if_pos hg] at hc
        refine ih _ ?_ c hc
        by_cases hce : cur = ""
        · rw [if_pos hce]
          subst hce
          right
          have h0 : ("" : String).length = 0 := rfl
          omega
        · rw [if_neg hce]
          right
          have hnn : ("\n\n" : String).length = 2 := rfl
          have : (cur ++ "\n\n" ++ pyStrip p).length
              = cur.length + 2 + (pyStrip p).length := by
            rw [length_sep_append, hnn]
          omega
      · rw [if_neg hg] at hc
        rcases List.mem_append.mp hc with hc | hc
        · by_cases hce : cur = ""
          · rw [if_pos hce] at hc; simp at hc
          · rw [if_neg hce] at hc
            simp at hc
            subst hc
            rcases hcur with h1 | h1
            · exact absurd h1 hce
            · exact Or.inl h1
        · by_cases hp : (pyStrip p).length ≤ cfg.max_chunk_size
          · rw [if_pos hp] at hc
            exact ih _ (Or.inr hp) c hc
          · rw [if_neg hp] at hc
            rcases List.mem_append.mp hc with hc | hc
            · exact sentencesLoopAux_sound cfg hw _ "" (Or.inl rfl) c hc
            · exact ih _ (Or.inl rfl) c hc

theorem chunkText_sound (cfg : ChunkConfig) (hw : cfg.split_by_word = true)
    (text : String) :
    ∀ c ∈ chunkText cfg text,
      c.length ≤ cfg.max_chunk_size ∨ IsSingleWord c := by
  intro c hc
  rw [chunkText] at hc
  by_cases h0 : text = ""
  · rw [if_pos h0] at hc; simp at hc
  · rw [if_neg h0] at hc
    by_cases h1 : text.length ≤ cfg.max_chunk_size
    · rw [if_pos h1] at hc
      simp at hc
      subst hc
      exact Or.inl h1
    · rw [if_neg h1] at hc
      exact chunkTextAux_sound cfg hw _ "" (Or.inl rfl) c hc

theorem mkSplitChunks_mem :
    ∀ (ss : List String) (num page : Nat) (ci : ChapterInfo),
      ∀ c ∈ mkSplitChunks num page ci ss,
        ∃ s ∈ ss, c.content = s ∧ c.char_count = s.length := by
  intro ss
  induction ss with
  | nil => intro num page ci c hc; simp [mkSplitChunks] at hc
  | cons s ss ih =>
    intro num page ci c hc
    rw [mkSplitChunks] at hc
    rcases List.mem_cons.mp hc with rfl | hc
    · exact ⟨s, List.mem_cons_self _ _, rfl, rfl⟩
    · rcases ih (num + 1) page ci c hc with ⟨t, ht, h1, h2⟩
      exact ⟨t, List.mem_cons_of_mem _ ht, h1, h2⟩

theorem createChunksAux_sound (cfg : ChunkConfig)
    (chapters : List ChapterConfig) (hw : cfg.split_by_word = true) :
    ∀ (bs : List TextBlock) (cur : String) (page : Nat)
      (info : Option ChapterInfo) (num : Nat),
      (cur = "" ∨ cur.length ≤ cfg.max_chunk_size) →
      ∀ c ∈ createChunksAux cfg chapters bs cur page info num,
        c.char_count ≤ cfg.max_chunk_size ∨ IsSingleWord c.content := by
  intro bs
  induction bs with
  | nil =>
    intro cur page info num hcur c hc
    by_cases h : cur = ""
    · rw [createChunksAux, if_pos h] at hc; simp at hc
    · rw [createChunksAux, if_neg h] at hc
      simp at hc
      subst hc
      rcases hcur with h1 | h1
      · exact absurd h1 h
      · exact Or.inl h1
  | cons b bs ih =>
    intro cur page info num hcur c hc
    rw [createChunksAux] at hc
    simp only [] at hc
    by_cases hbe : pyStrip b.content = ""
    · rw [if_pos hbe] at hc
      exact ih cur _ _ num hcur c hc
    · rw [if_neg hbe] at hc
      by_cases hg : cur.length + (pyStrip b.content).length + 2 ≤ cfg.max_chunk_size
      · rw [if_pos hg] at hc
        refine ih _ _ _ num ?_ c hc
        by_cases hce : cur = ""
        · rw [if_pos hce]
          subst hce
          right
          have h0 : ("" : String).length = 0 := rfl
          omega
        · rw [if_neg hce]
          right
          have hnn : ("\n\n" : String).length = 2 := rfl
          have : (cur ++ "\n\n" ++ pyStrip b.content).length
              = cur.length + 2 + (pyStrip b.content).length := by
            rw [length_sep_append, hnn]
          omega
      · rw [if_neg hg] at hc
        by_cases hbl : (pyStrip b.content).length ≤ cfg.max_chunk_size
        · rw [if_pos hbl] at hc
          rcases List.mem_append.mp hc with hc | hc
          · by_cases hce : cur = ""
            · rw [if_pos hce] at hc; simp at hc
            · rw [if_neg hce] at hc
              simp at hc
              subst hc
              rcases hcur with h1 | h1
              · exact absurd h1 hce
              · exact Or.inl h1
          · exact ih _ _ _ _ (Or.inr hbl) c hc
        · rw [if_neg hbl] at hc
          rcases List.mem_append.mp hc with hc | hc
          · rcases List.mem_append.mp hc with hc | hc
            · by_cases hce : cur = ""
              · rw [if_pos hce] at hc; simp at hc
              · rw [if_neg hce] at hc
                simp at hc
                subst hc
                rcases hcur with h1 | h1
                · exact absurd h1 hce
                · exact Or.inl h1
            · rcases mkSplitChunks_mem _ _ _ _ c hc with ⟨s, hs, h1, h2⟩
              rcases chunkText_sound cfg hw (pyStrip b.content) s hs with h3 | h3
              · exact Or.inl (by omega)
              · exact Or.inr (h1 ▸ h3)
          · exact ih _ _ _ _ (Or.inl rfl) c hc

theorem chunkerRunAux_sound (cfg : ChunkConfig)
    (chapters : List ChapterConfig) (hw : cfg.split_by_word = true) :
    ∀ (gs : List (List TextBlock)) (num : Nat),
      ∀ c ∈ chunkerRunAux cfg chapters gs num,
        c.char_count ≤ cfg.max_chunk_size ∨ IsSingleWord c.content := by
  intro gs
  induction gs with
  | nil => intro num c hc; simp [chunkerRunAux] at hc
  | cons g gs ih =>
    intro num c hc
    rw [chunkerRunAux] at hc
    rcases List.mem_append.mp hc with hc | hc
    · exact createChunksAux_sound cfg chapters hw g "" _ none num
        (Or.inl rfl) c hc
    · exact ih _ c hc

/-! ## Helper lemmas: every emitted chunk is nonempty -/

theorem splitByWordsAux_ne (maxSize : Nat) :
    ∀ (ws : List String) (cur : String),
      ∀ c ∈ splitByWordsAux maxSize ws cur, c ≠ "" := by
  intro ws
  induction ws with
  | nil =>
    intro cur c hc
    by_cases h : cur = ""
    · rw [splitByWordsAux, if_pos h] at hc; simp at hc
    · rw [splitByWordsAux, if_neg h] at hc
      simp at hc
      subst hc
      exact h
  | cons w ws ih =>
    intro cur c hc
    rw [splitByWordsAux] at hc
    by_cases hg : cur.length + w.length + 1 ≤ maxSize
    · rw [if_pos hg] at hc
      exact ih _ c hc
    · rw [if_neg hg] at hc
      rcases List.mem_append.mp hc with hc | hc
      · by_cases hce : cur = ""
        · rw [if_pos hce] at hc; simp at hc
        · rw [if_neg hce] at hc
          simp at hc
          subst hc
          exact hce
      · exact ih _ c hc

theorem sentencesLoopAux_ne (cfg : ChunkConfig) :
    ∀ (ss : List String) (para : String),
      ∀ c ∈ sentencesLoopAux cfg ss para, c ≠ "" := by
  intro ss
  induction ss with
  | nil =>
    intro para c hc
    by_cases h : para = ""
    · rw [sentencesLoopAux, if_pos h] at hc; simp at hc
    · rw [sentencesLoopAux, if_neg h] at hc
      simp at hc
      subst hc
      exact h
  | cons s ss ih =>
    intro para c hc
    rw [sentencesLoopAux] at hc
    by_cases hg : para.length + s.length + 1 ≤ cfg.max_chunk_size
    · rw [if_pos hg] at hc
      exact ih _ c hc
    · rw [if_neg hg] at hc
      rcases List.mem_append.mp hc with hc | hc
      · by_cases hpe : para = ""
        · rw [if_pos hpe] at hc; simp at hc
        · rw [if_neg hpe] at hc
          simp at hc
          subst hc
          exact hpe
      · by_cases hs : s.length ≤ cfg.max_chunk_size
        · rw [if_pos hs] at hc
          exact ih _ c hc
        · rw [if_neg hs] at hc
          rcases List.mem_append.mp hc with hc | hc
          · by_cases hword : cfg.split_by_word
            · rw [if_pos hword] at hc
              exact splitByWordsAux_ne cfg.max_chunk_size _ _ c hc
            · rw [if_neg hword] at hc
              simp at hc
              subst hc
              exact ne_empty_of_max_lt hs
          · exact ih _ c hc

theorem chunkTextAux_ne (cfg : ChunkConfig) :
    ∀ (ps : List String) (cur : String),
      ∀ c ∈ chunkTextAux cfg ps cur, c ≠ "" := by
  intro ps
  induction ps with
  | nil =>
    intro cur c hc
    by_cases h : cur = ""
    · rw [chunkTextAux, if_pos h] at hc; simp at hc
    · rw [chunkTextAux, if_neg h] at hc
      simp at hc
      subst hc
      exact h
  | cons p ps ih =>
    intro cur c hc
    rw [chunkTextAux] at hc
    by_cases hpe : pyStrip p = ""
    · rw [if_pos hpe] at hc
      exact ih cur c hc
    · rw [if_neg hpe] at hc
      by_cases hg : cur.length + (pyStrip p).length + 2 ≤ cfg.max_chunk_size
      · rw [if_pos hg] at hc
        exact ih _ c hc
      · rw [if_neg hg] at hc
        rcases List.mem_append.mp hc with hc | hc
        · by_cases hce : cur = ""
          · rw [if_pos hce] at hc; simp at hc
          · rw [if_neg hce] at hc
            simp at hc
            subst hc
            exact hce
        · by_cases hp : (pyStrip p).length ≤ cfg.max_chunk_size
          · rw [if_pos hp] at hc
            exact ih _ c hc
          · rw [if_neg hp] at hc
            rcases List.mem_append.mp hc with hc | hc
            · exact sentencesLoopAux_ne cfg _ "" c hc
            · exact ih _ c hc

theorem chunkText_ne (cfg : ChunkConfig) (text : String) :
    ∀ c ∈ chunkText cfg text, c ≠ "" := by
  intro c hc
  rw [chunkText] at hc
  by_cases h0 : text = ""
  · rw [if_pos h0] at hc; simp at hc
  · rw [if_neg h0] at hc
    by_cases h1 : text.length ≤ cfg.max_chunk_size
    · rw [if_pos h1] at hc
      simp at hc
      subst hc
      exact h0
    · rw [if_neg h1] at hc
      exact chunkTextAux_ne cfg _ "" c hc

theorem createChunksAux_ne (cfg : ChunkConfig)
    (chapters : List ChapterConfig) :
    ∀ (bs : List TextBlock) (cur : String) (page : Nat)
      (info : Option ChapterInfo) (num : Nat),
      ∀ c ∈ createChunksAux cfg chapters bs cur page info num,
        c.content ≠ "" := by
  intro bs
  induction bs with
  | nil =>
    intro cur page info num c hc
    by_cases h : cur = ""
    · rw [createChunksAux, if_pos h] at hc; simp at hc
    · rw [createChunksAux, if_neg h] at hc
      simp at hc
      subst hc
      exact h
  | cons b bs ih =>
    intro cur page info num c hc
    rw [createChunksAux] at hc
    by_cases hbe : pyStrip b.content = ""
    · rw [if_pos hbe] at hc
      exact ih cur _ _ num c hc
    · rw [if_neg hbe] at hc
      by_cases hg : cur.length + (pyStrip b.content).length + 2 ≤ cfg.max_chunk_size
      · rw [if_pos hg] at hc
        exact ih _ _ _ num c hc
      · rw [if_neg hg] at hc
        by_cases hbl : (pyStrip b.content).length ≤ cfg.max_chunk_size
        · rw [if_pos hbl] at hc
          rcases List.mem_append.mp hc with hc | hc
          · by_cases hce : cur = ""
            · rw [if_pos hce] at hc; simp at hc
            · rw [if_neg hce] at hc
              simp at hc
              subst hc
              exact hce
          · exact ih _ _ _ _ c hc
        · rw [if_neg hbl] at hc
          rcases List.mem_append.mp hc with hc | hc
          · rcases List.mem_append.mp hc with hc | hc
            · by_cases hce : cur = ""
              · rw [if_pos hce] at hc; simp at hc
              · rw [if_neg hce] at hc
                simp at hc
                subst hc
                exact hce
            · rcases mkSplitChunks_mem _ _ _ _ c hc with ⟨s, hs, h1, _⟩
              rw [h1]
              exact chunkText_ne cfg (pyStrip b.content) s hs
          · exact ih _ _ _ _ c hc

theorem chunkerRunAux_ne (cfg : ChunkConfig) (chapters : List ChapterConfig) :
    ∀ (gs : List (List TextBlock)) (num : Nat),
      ∀ c ∈ chunkerRunAux cfg chapters gs num, c.content ≠ "" := by
  intro gs
  induction gs with
  | nil => intro num c hc; simp [chunkerRunAux] at hc
  | cons g gs ih =>
    intro num c hc
    rw [chunkerRunAux] at hc
    rcases List.mem_append.mp hc with hc | hc
    · exact createChunksAux_ne cfg chapters g "" _ none num c hc
    · exact ih _ c hc

/-! ## Helper lemmas: chunk numbering -/

theorem range_add_append (a m k : Nat) :
    List.range' a m ++ List.range' (a + m) k = List.range' a (m + k) := by
  induction m generalizing a with
  | zero => simp
  | succ m ih =>
    rw [List.range'_succ, Nat.succ_add, List.range'_succ, List.cons_append]
    have : a + (m + 1) = (a + 1) + m := by omega
    rw [this, ih (a + 1)]

theorem mkSplitChunks_length :
    ∀ (ss : List String) (num page : Nat) (ci : ChapterInfo),
      (mkSplitChunks num page ci ss).length = ss.length := by
  intro ss
  induction ss with
  | nil => intro num page ci; rfl
  | cons s ss ih =>
    intro num page ci
    rw [mkSplitChunks]
    simp [ih]

theorem mkSplitChunks_nums :
    ∀ (ss : List String) (num page : Nat) (ci : ChapterInfo),
      (mkSplitChunks num page ci ss).map (fun c => c.chunk_num)
        = List.range' num ss.length := by
  intro ss
  induction ss with
  | nil => intro num page ci; rfl
  | cons s ss ih =>
    intro num page ci
    rw [mkSplitChunks]
    simp only [List.map_cons, List.length_cons, List.range'_succ]
    rw [ih]
    rfl

theorem createChunksAux_nums (cfg : ChunkConfig)
    (chapters : List ChapterConfig) :
    ∀ (bs : List TextBlock) (cur : String) (page : Nat)
      (info : Option ChapterInfo) (num : Nat),
      (createChunksAux cfg chapters bs cur page info num).map
          (fun c => c.chunk_num)
        = List.range' num
            (createChunksAux cfg chapters bs cur page info num).length := by
  intro bs
  induction bs with
  | nil =>
    intro cur page info num
    by_cases h : cur = ""
    · rw [createChunksAux, if_pos h]; rfl
    · rw [createChunksAux, if_neg h]; rfl
  | cons b bs ih =>
    intro cur page info num
    rw [createChunksAux]
    by_cases hbe : pyStrip b.content = ""
    · rw [if_pos hbe]
      exact ih cur _ _ num
    · rw [if_neg hbe]
      by_cases hg : cur.length + (pyStrip b.content).length + 2 ≤ cfg.max_chunk_size
      · rw [if_pos hg]
        exact ih _ _ _ num
      · rw [if_neg hg]
        by_cases hbl : (pyStrip b.content).length ≤ cfg.max_chunk_size
        · rw [if_pos hbl]
          by_cases hce : cur = ""
          · rw [if_pos hce]
            simp only [List.nil_append, List.length_nil, Nat.add_zero]
            exact ih _ _ _ num
          · rw [if_neg hce]
            simp only [List.cons_append, List.nil_append, List.map_cons,
              List.length_cons, List.length_append, List.length_singleton,
              List.length_nil, Nat.zero_add]
            rw [List.range'_succ]
            congr 1
            exact ih _ _ _ (num + 1)
        · rw [if_neg hbl]
          by_cases hce : cur = ""
          · rw [if_pos hce]
            simp only [List.nil_append, List.length_nil, Nat.add_zero,
              List.map_append, List.length_append]
            rw [mkSplitChunks_nums, mkSplitChunks_length, ih _ _ _ _,
              range_add_append]
          · rw [if_neg hce]
            simp only [List.cons_append, List.nil_append, List.map_cons,
              List.map_append, List.length_cons, List.length_append,
              List.length_singleton, List.length_nil, Nat.zero_add]
            rw [List.range'_succ, mkSplitChunks_nums, mkSplitChunks_length,
              ih _ _ _ _, range_add_append]
            rfl

theorem chunkerRunAux_nums (cfg : ChunkConfig)
    (chapters : List ChapterConfig) :
    ∀ (gs : List (List TextBlock)) (num : Nat),
      (chunkerRunAux cfg chapters gs num).map (fun c => c.chunk_num)
        = List.range' num (chunkerRunAux cfg chapters gs num).length := by
  intro gs
  induction gs with
  | nil => intro num; rfl
  | cons g gs ih =>
    intro num
    rw [chunkerRunAux]
    simp only [List.map_append, List.length_append]
    rw [createChunksFromGroup.eq_def]
    rw [createChunksAux_nums, ih, range_add_append]

/-! ## Helper lemmas: list minimum / maximum as Python computes them -/

theorem foldl_min_le_init : ∀ (l : List Nat) (a : Nat), l.foldl min a ≤ a := by
  intro l
  induction l with
  | nil => intro a; exact Nat.le_refl a
  | cons c cs ih =>
    intro a
    exact Nat.le_trans (ih (min a c)) (Nat.min_le_left a c)

theorem foldl_min_le_mem :
    ∀ (l : List Nat) (a x : Nat), x ∈ l → l.foldl min a ≤ x := by
  intro l
  induction l with
  | nil => intro a x hx; simp at hx
  | cons c cs ih =>
    intro a x hx
    rcases List.mem_cons.mp hx with rfl | hx
    · exact Nat.le_trans (foldl_min_le_init cs (min a x)) (Nat.min_le_right a x)
    · exact ih (min a c) x hx

theorem foldl_min_mem :
    ∀ (l : List Nat) (a : Nat), l.foldl min a = a ∨ l.foldl min a ∈ l := by
  intro l
  induction l with
  | nil => intro a; exact Or.inl rfl
  | cons c cs ih =>
    intro a
    rw [List.foldl_cons]
    rcases ih (min a c) with h | h
    · rw [h]
      rcases Nat.le_total a c with hac | hac
      · exact Or.inl (Nat.min_eq_left hac)
      · right
        rw [Nat.min_eq_right hac]
        exact List.mem_cons_self _ _
    · exact Or.inr (List.mem_cons_of_mem _ h)

theorem listMin_le (l : List Nat) (x : Nat) (hx : x ∈ l) : listMin l ≤ x := by
  cases l with
  | nil => simp at hx
  | cons c cs =>
    rcases List.mem_cons.mp hx with rfl | hx
    · exact foldl_min_le_init cs x
    · exact foldl_min_le_mem cs c x hx

theorem listMin_mem (l : List Nat) (h : l ≠ []) : listMin l ∈ l := by
  cases l with
  | nil => exact absurd rfl h
  | cons c cs =>
    rcases foldl_min_mem cs c with h1 | h1
    · rw [listMin, h1]
      exact List.mem_cons_self _ _
    · exact List.mem_cons_of_mem _ h1

theorem foldl_max_init_le : ∀ (l : List Nat) (a : Nat), a ≤ l.foldl max a := by
  intro l
  induction l with
  | nil => intro a; exact Nat.le_refl a
  | cons c cs ih =>
    intro a
    exact Nat.le_trans (Nat.le_max_left a c) (ih (max a c))

theorem foldl_max_mem_le :
    ∀ (l : List Nat) (a x : Nat), x ∈ l → x ≤ l.foldl max a := by
  intro l
  induction l with
  | nil => intro a x hx; simp at hx
  | cons c cs ih =>
    intro a x hx
    rcases List.mem_cons.mp hx with rfl | hx
    · exact Nat.le_trans (Nat.le_max_right a x) (foldl_max_init_le cs (max a x))
    · exact ih (max a c) x hx

theorem foldl_max_mem :
    ∀ (l : List Nat) (a : Nat), l.foldl max a = a ∨ l.foldl max a ∈ l := by
  intro l
  induction l with
  | nil => intro a; exact Or.inl rfl
  | cons c cs ih =>
    intro a
    rw [List.foldl_cons]
    rcases ih (max a c) with h | h
    · rw [h]
      rcases Nat.le_total a c with hac | hac
      · right
        rw [Nat.max_eq_right hac]
        exact List.mem_cons_self _ _
      · exact Or.inl (Nat.max_eq_left hac)
    · exact Or.inr (List.mem_cons_of_mem _ h)

theorem listMax_ge (l : List Nat) (x : Nat) (hx : x ∈ l) : x ≤ listMax l := by
  cases l with
  | nil => simp at hx
  | cons c cs =>
    rcases List.mem_cons.mp hx with rfl | hx
    · exact foldl_max_init_le cs x
    · exact foldl_max_mem_le cs c x hx

theorem listMax_mem (l : List Nat) (h : l ≠ []) : listMax l ∈ l := by
  cases l with
  | nil => exact absurd rfl h
  | cons c cs =>
    rcases foldl_max_mem cs c with h1 | h1
    · rw [listMax, h1]
      exact List.mem_cons_self _ _
    · exact List.mem_cons_of_mem _ h1

/-! ## Claim theorems about the chunking phase -/

/-- Claim C1: with all three split flags enabled, every chunk the chunker
emits has `char_count ≤ max_chunk_size`, except chunks that consist of
exactly one whitespace-delimited word (nonempty, no whitespace) whose own
length exceeds `max_chunk_size` and which are emitted verbatim. -/
theorem chunker_size_bound (cfg : ChunkConfig) (blocks : List TextBlock)
    (chapters : List ChapterConfig)
    (hp : cfg.split_by_paragraph = true) (hs : cfg.split_by_sentence = true)
    (hw : cfg.split_by_word = true) :
    ∀ c ∈ (chunkerRun cfg blocks chapters).1,
      c.char_count ≤ cfg.max_chunk_size ∨
        (IsSingleWord c.content ∧ cfg.max_chunk_size < c.char_count) := by
  intro c hc
  have hc2 : c ∈ chunkerRunAux cfg chapters
      (groupBlocksByChapter blocks chapters) 1 := hc
  rcases chunkerRunAux_sound cfg chapters hw _ 1 c hc2 with h | h
  · exact Or.inl h
  · by_cases hle : c.char_count ≤ cfg.max_chunk_size
    · exact Or.inl hle
    · exact Or.inr ⟨h, by omega⟩

/-- Witness for C1 at a concrete run: one 15-character block with a word
longer than the 5-character bound emits that word verbatim as an oversized
single-word chunk. -/
theorem chunker_size_bound_witness :
    exOversizedChunk ∈ (chunkerRun ({ max_chunk_size := 5 } : ChunkConfig)
        [{ content := "go extravaganza", page_num := 1 }] []).1
    ∧ (exOversizedChunk.char_count ≤ 5
       ∨ (IsSingleWord exOversizedChunk.content
          ∧ 5 < exOversizedChunk.char_count)) :=
  ⟨by decide,
   chunker_size_bound ({ max_chunk_size := 5 } : ChunkConfig)
     [{ content := "go extravaganza", page_num := 1 }] [] rfl rfl rfl
     exOversizedChunk (by decide)⟩

/-- Claim C10: every chunk emitted by the segmenter has nonempty content,
under every configuration and input. -/
theorem chunker_content_nonempty (cfg : ChunkConfig) (blocks : List TextBlock)
    (chapters : List ChapterConfig) :
    ∀ c ∈ (chunkerRun cfg blocks chapters).1, c.content ≠ "" := by
  intro c hc
  have hc2 : c ∈ chunkerRunAux cfg chapters
      (groupBlocksByChapter blocks chapters) 1 := hc
  exact chunkerRunAux_ne cfg chapters _ 1 c hc2

/-- Witness for C10 at a concrete run. -/
theorem chunker_content_nonempty_witness :
    exHelloChunk ∈ (chunkerRun ({} : ChunkConfig)
        [{ content := "hello", page_num := 1 }] []).1
    ∧ exHelloChunk.content ≠ "" :=
  ⟨by decide,
   chunker_content_nonempty ({} : ChunkConfig)
     [{ content := "hello", page_num := 1 }] [] exHelloChunk (by decide)⟩

/-- Claim C4 (amended): the emitted chunk numbers are exactly 1, 2, …, n in
emission order — consecutive, hence strictly increasing and starting at 1 —
for every input and configuration.  The page-monotonicity half of the
original claim fails on the code; see the counterexample below. -/
theorem chunker_numbering (cfg : ChunkConfig) (blocks : List TextBlock)
    (chapters : List ChapterConfig) :
    (chunkerRun cfg blocks chapters).1.map (fun c => c.chunk_num)
      = List.range' 1 (chunkerRun cfg blocks chapters).1.length :=
  chunkerRunAux_nums cfg chapters _ 1

/-- Counterexample to Claim C4 as stated: blocks on pages 1, 2, 3 given in
page order, with the page-2 block oversized, yield chunks whose source pages
run 1, 2, 1 — not non-decreasing.  (After splitting the oversized block the
code never resets `current_chunk_page`, so the final accumulator flush
reports the stale page.) -/
theorem chunker_page_order_cex :
    (([{ content := "aaa", page_num := 1 },
       { content := "abcdefghijkl", page_num := 2 },
       { content := "bbb", page_num := 3 }] : List TextBlock).map
        (fun b => b.page_num) = [1, 2, 3])
    ∧ (chunkerRun ({ max_chunk_size := 10 } : ChunkConfig)
        [{ content := "aaa", page_num := 1 },
         { content := "abcdefghijkl", page_num := 2 },
         { content := "bbb", page_num := 3 }] []).1.map (fun c => c.source_page)
      = [1, 2, 1]
    ∧ ¬ List.Chain' (fun a b => a ≤ b)
        ((chunkerRun ({ max_chunk_size := 10 } : ChunkConfig)
          [{ content := "aaa", page_num := 1 },
           { content := "abcdefghijkl", page_num := 2 },
           { content := "bbb", page_num := 3 }] []).1.map
            (fun c => c.source_page)) := by
  refine ⟨rfl, rfl, ?_⟩
  intro hch
  have h2 : (chunkerRun ({ max_chunk_size := 10 } : ChunkConfig)
      [{ content := "aaa", page_num := 1 },
       { content := "abcdefghijkl", page_num := 2 },
       { content := "bbb", page_num := 3 }] []).1.map (fun c => c.source_page)
      = [1, 2, 1] := rfl
  rw [h2] at hch
  rcases List.chain'_cons.mp hch with ⟨_, hch2⟩
  rcases List.chain'_cons.mp hch2 with ⟨hle, _⟩
  omega

/-- Counterexample to Claim C7 as stated: two runs whose chunk lists have
different total word counts produce identical metadata, so the computed
metrics cannot comprise a `total_words` (nor any word-sensitive histogram):
chunking.py's `ChunkingMetadata` has no such field. -/
theorem chunker_metadata_no_total_words_cex :
    (chunkerRun ({} : ChunkConfig) [{ content := "a b c", page_num := 1 }] []).2
      = (chunkerRun ({} : ChunkConfig) [{ content := "abcde", page_num := 1 }] []).2
    ∧ totalWords (chunkerRun ({} : ChunkConfig)
        [{ content := "a b c", page_num := 1 }] []).1
      ≠ totalWords (chunkerRun ({} : ChunkConfig)
        [{ content := "abcde", page_num := 1 }] []).1 := by
  refine ⟨?_, ?_⟩
  · rfl
  · decide

/-- Claim C7 (amended): the metrics computed over the final chunk list are
total_chunks (the list length), total_characters (the sum of chunk character
counts), and average/minimum/maximum chunk character size — all 0 on an
empty chunk list, with average·length = total, and min/max attained by and
bounding the chunk sizes otherwise.  No word count and no split-method
histogram are computed; see the counterexample above. -/
theorem chunker_metadata_fields (cfg : ChunkConfig) (blocks : List TextBlock)
    (chapters : List ChapterConfig) (chunks : List Chunk)
    (md : ChunkingMetadata)
    (h : chunkerRun cfg blocks chapters = (chunks, md)) :
    md.total_chunks = chunks.length
    ∧ md.total_characters = (chunks.map (fun c => c.char_count)).sum
    ∧ (chunks = [] →
        md.avg_chunk_size = 0 ∧ md.min_chunk_size = 0 ∧ md.max_chunk_size = 0)
    ∧ (chunks ≠ [] →
        md.avg_chunk_size * (chunks.length : ℚ) = (md.total_characters : ℚ)
        ∧ md.min_chunk_size ∈ chunks.map (fun c => c.char_count)
        ∧ md.max_chunk_size ∈ chunks.map (fun c => c.char_count)
        ∧ ∀ c ∈ chunks, md.min_chunk_size ≤ c.char_count
            ∧ c.char_count ≤ md.max_chunk_size) := by
  rw [chunkerRun] at h
  injection h with h1 h2
  subst h1
  subst h2
  refine ⟨rfl, rfl, ?_, ?_⟩
  · intro hemp
    rw [hemp]
    exact ⟨rfl, rfl, rfl⟩
  · intro hne
    have hie : (chunkerRunAux cfg chapters
        (groupBlocksByChapter blocks chapters) 1).isEmpty = false := by
      rcases hx : chunkerRunAux cfg chapters
          (groupBlocksByChapter blocks chapters) 1 with _ | ⟨a, l⟩
      · exact absurd hx hne
      · rfl
    constructor
    · simp only [hie, Bool.false_eq_true, if_false]
      have hlen : ((chunkerRunAux cfg chapters
          (groupBlocksByChapter blocks chapters) 1).length : ℚ) ≠ 0 := by
        rw [Nat.cast_ne_zero]
        intro h0
        exact hne (List.length_eq_zero.mp h0)
      exact div_mul_cancel₀ _ hlen
    · have hmapne : (chunkerRunAux cfg chapters
          (groupBlocksByChapter blocks chapters) 1).map
            (fun c => c.char_count) ≠ [] := by
        intro h0
        exact hne (List.map_eq_nil_iff.mp h0)
      refine ⟨?_, ?_, ?_⟩
      · simp only [hie, Bool.false_eq_true, if_false]
        exact listMin_mem _ hmapne
      · simp only [hie, Bool.false_eq_true, if_false]
        exact listMax_mem _ hmapne
      · intro c hc
        constructor
        · simp only [hie, Bool.false_eq_true, if_false]
          exact listMin_le _ _ (List.mem_map_of_mem _ hc)
        · simp only [hie, Bool.false_eq_true, if_false]
          exact listMax_ge _ _ (List.mem_map_of_mem _ hc)

/-- Witness for the amended C7 at a concrete nonempty run. -/
theorem chunker_metadata_fields_witness :
    (chunkerRun ({} : ChunkConfig) [{ content := "abcde", page_num := 1 }] []).1
      ≠ []
    ∧ (chunkerRun ({} : ChunkConfig)
        [{ content := "abcde", page_num := 1 }] []).2.min_chunk_size
      ∈ (chunkerRun ({} : ChunkConfig)
          [{ content := "abcde", page_num := 1 }] []).1.map
          (fun c => c.char_count) :=
  ⟨by decide, ((chunker_metadata_fields _ _ _ _ _ rfl).2.2.2 (by decide)).2.1⟩

/-! ## Helper lemmas: the classification merge -/

theorem bookmarkPass_length (bms : List Bookmark) (blocks : List TextBlock) :
    (bookmarkPass bms blocks).length = blocks.length := by
  simp [bookmarkPass]

theorem heuristicAll_length (cfg : StructConfig) (blocks : List TextBlock) :
    (heuristicAll cfg blocks).length = blocks.length := by
  simp [heuristicAll]

theorem regexAll_length (blocks : List TextBlock) :
    (regexAll blocks).length = blocks.length := by
  simp [regexAll]

theorem overrideUnknown_length :
    ∀ (cs hs : List (TextBlockType × Nat)),
      (overrideUnknown cs hs).length = min cs.length hs.length := by
  intro cs
  induction cs with
  | nil => intro hs; simp [overrideUnknown]
  | cons a cs ih =>
    intro hs
    cases hs with
    | nil => simp [overrideUnknown]
    | cons h hs =>
      rw [overrideUnknown]
      simp [ih hs]
      omega

theorem bookmarkLevelType_ne_unknown (l : Nat) :
    bookmarkLevelType l ≠ UNKNOWN := by
  unfold bookmarkLevelType
  split_ifs <;> simp

theorem overrideUnknown_get? :
    ∀ (cs hs : List (TextBlockType × Nat)) (i : Nat) (c : TextBlockType × Nat),
      cs.length = hs.length → cs.get? i = some c → c.1 ≠ UNKNOWN →
      (overrideUnknown cs hs).get? i = some c := by
  intro cs
  induction cs with
  | nil => intro hs i c _ hc _; simp at hc
  | cons a cs ih =>
    intro hs i c hlen hc hunk
    cases hs with
    | nil => simp at hlen
    | cons h hs =>
      rw [overrideUnknown]
      cases i with
      | zero =>
        simp only [List.get?_cons_zero, Option.some.injEq] at hc
        subst hc
        simp only [List.get?_cons_zero, Option.some.injEq]
        exact if_neg hunk
      | succ n =>
        simp only [List.get?_cons_succ] at hc ⊢
        exact ih hs n c (by simpa using hlen) hc hunk

theorem createStructuredAux_get? :
    ∀ (blocks : List TextBlock) (tl : List (TextBlockType × Nat))
      (par chap sect : Option String) (i : Nat) (b : TextBlock)
      (t : TextBlockType) (lvl : Nat),
      blocks.get? i = some b → tl.get? i = some (t, lvl) →
      ∃ sb, (createStructuredAux blocks tl par chap sect).get? i = some sb
        ∧ sb.block_type = t ∧ sb.hierarchy_level = lvl
        ∧ sb.content = b.content ∧ sb.page_num = b.page_num := by
  intro blocks
  induction blocks with
  | nil => intro tl par chap sect i b t lvl hb _; simp at hb
  | cons a blocks ih =>
    intro tl par chap sect i b t lvl hb ht
    cases tl with
    | nil => simp at ht
    | cons hd tl =>
      obtain ⟨t0, l0⟩ := hd
      rw [createStructuredAux]
      cases i with
      | zero =>
        simp only [List.get?_cons_zero, Option.some.injEq] at hb ht
        injection ht with h1 h2
        subst h1
        subst h2
        subst hb
        exact ⟨_, rfl, rfl, rfl, rfl, rfl⟩
      | succ n =>
        simp only [List.get?_cons_succ] at hb ht ⊢
        exact ih tl _ _ _ n b t lvl hb ht

/-- The (type, level) pair the classification assigns to a block whose page
has a bookmark entry, when bookmarks are enabled: the later passes and the
finalization leave it untouched. -/
theorem classifyTypes_bookmark (cfg : StructConfig) (blocks : List TextBlock)
    (bms : List Bookmark) (i : Nat) (b : TextBlock) (bm : Bookmark)
    (hb : cfg.use_bookmarks = true) (hne : bms ≠ [])
    (hblock : blocks.get? i = some b)
    (hfind : bookmarkFind bms b.page_num = some bm) :
    (classifyTypes cfg blocks bms).get? i
      = some (bookmarkLevelType bm.level, bm.level) := by
  have hp1 : (bookmarkPass bms blocks).get? i
      = some (bookmarkLevelType bm.level, bm.level) := by
    rw [bookmarkPass, List.get?_map, hblock, Option.map_some', hfind]
  have hunk : (bookmarkLevelType bm.level, bm.level).1 ≠ UNKNOWN :=
    bookmarkLevelType_ne_unknown bm.level
  have hcond : cfg.use_bookmarks = true ∧ bms ≠ [] := ⟨hb, hne⟩
  simp only [classifyTypes]
  rw [if_pos hcond]
  by_cases hheu : cfg.use_heuristics = true
  · rw [if_pos hheu]
    by_cases hre : cfg.use_regex = true
    · rw [if_pos hre]
      have h2 := overrideUnknown_get? (bookmarkPass bms blocks)
        (heuristicAll cfg blocks) i _
        (by rw [bookmarkPass_length, heuristicAll_length]) hp1 hunk
      have h3 := overrideUnknown_get? _ (regexAll blocks) i _
        (by rw [overrideUnknown_length, bookmarkPass_length,
          heuristicAll_length, regexAll_length]; omega) h2 hunk
      rw [List.get?_map, h3, Option.map_some', if_neg hunk]
    · rw [if_neg hre]
      have h2 := overrideUnknown_get? (bookmarkPass bms blocks)
        (heuristicAll cfg blocks) i _
        (by rw [bookmarkPass_length, heuristicAll_length]) hp1 hunk
      rw [List.get?_map, h2, Option.map_some', if_neg hunk]
  · rw [if_neg hheu]
    by_cases hre : cfg.use_regex = true
    · rw [if_pos hre]
      have h3 := overrideUnknown_get? (bookmarkPass bms blocks)
        (regexAll blocks) i _
        (by rw [bookmarkPass_length, regexAll_length]) hp1 hunk
      rw [List.get?_map, h3, Option.map_some', if_neg hunk]
    · rw [if_neg hre]
      rw [List.get?_map, hp1, Option.map_some', if_neg hunk]

/-- Claim C2: when the bookmark pass is enabled and nonempty, the
classification of a block whose page is in the bookmark map is the
bookmark's (type, level) — the lower-precedence heuristic and regex passes
may only fill blocks still UNKNOWN, so the bookmark decision is final under
every heuristic/regex setting. -/
theorem bookmark_precedence (cfg : StructConfig) (blocks : List TextBlock)
    (bms : List Bookmark) (now : String) (i : Nat) (b : TextBlock)
    (bm : Bookmark)
    (hb : cfg.use_bookmarks = true) (hne : bms ≠ [])
    (hblock : blocks.get? i = some b)
    (hfind : bookmarkFind bms b.page_num = some bm) :
    ∃ sb, (structureRun cfg blocks bms now).1.get? i = some sb
      ∧ sb.block_type = bookmarkLevelType bm.level
      ∧ sb.hierarchy_level = bm.level := by
  have hty := classifyTypes_bookmark cfg blocks bms i b bm hb hne hblock hfind
  rcases createStructuredAux_get? blocks (classifyTypes cfg blocks bms)
    none none none i b _ _ hblock hty with ⟨sb, h1, h2, h3, _, _⟩
  exact ⟨sb, h1, h2, h3⟩

/-- Witness for C2: the spec's own example — bookmark
`{level: 0, title: "Part I", page: 1}` and a block on page 1, with all
three passes enabled (the default configuration): the block is classified
PART_HEADING at hierarchy level 0. -/
theorem bookmark_precedence_witness :
    ∃ sb, (structureRun ({} : StructConfig)
        [{ content := "Part I", page_num := 1 }]
        [{ level := 0, page := 1, title := "Part I" }] "t").1.get? 0 = some sb
      ∧ sb.block_type = bookmarkLevelType 0
      ∧ sb.hierarchy_level = 0 :=
  bookmark_precedence ({} : StructConfig)
    [{ content := "Part I", page_num := 1 }]
    [{ level := 0, page := 1, title := "Part I" }] "t" 0
    { content := "Part I", page_num := 1 }
    { level := 0, page := 1, title := "Part I" }
    rfl (by simp) rfl rfl

/-! ## Helper lemmas: the type→level mapping invariant -/

theorem determineHeadingLevel_le3 (blocks : List TextBlock) (b : TextBlock) :
    determineHeadingLevel blocks b ≤ 3 := by
  rw [determineHeadingLevel]
  split
  · omega
  · dsimp only
    split_ifs <;> omega

theorem typeLevel_getHeadingType (l : Nat) (hl : l ≤ 3) :
    typeLevel (getHeadingType l) = l ∧ getHeadingType l ≠ UNKNOWN := by
  interval_cases l <;> exact ⟨rfl, by decide⟩

theorem typeLevel_bookmark (l : Nat) (hl : l ≤ 3) :
    typeLevel (bookmarkLevelType l) = l := by
  interval_cases l <;> rfl

theorem regexClassify_valid (b : TextBlock) :
    (regexClassify b).2 = typeLevel (regexClassify b).1
    ∧ (regexClassify b).1 ≠ UNKNOWN := by
  rw [regexClassify]
  split_ifs <;> exact ⟨rfl, by simp⟩

theorem heuristicClassify_valid (cfg : StructConfig) (blocks : List TextBlock)
    (idx : Nat) (b : TextBlock) :
    (heuristicClassify cfg blocks idx b).2
      = typeLevel (heuristicClassify cfg blocks idx b).1
    ∧ (heuristicClassify cfg blocks idx b).1 ≠ UNKNOWN := by
  rw [heuristicClassify]
  split_ifs with h1 h2 h3
  · exact ⟨rfl, by simp⟩
  · exact ⟨rfl, by simp⟩
  · refine ⟨?_, (typeLevel_getHeadingType _
      (determineHeadingLevel_le3 blocks b)).2⟩
    exact (typeLevel_getHeadingType _ (determineHeadingLevel_le3 blocks b)).1.symm
  · exact ⟨rfl, by simp⟩

theorem overrideUnknown_mem :
    ∀ (cs hs : List (TextBlockType × Nat)) (c : TextBlockType × Nat),
      c ∈ overrideUnknown cs hs → c ∈ cs ∨ c ∈ hs := by
  intro cs
  induction cs with
  | nil => intro hs c hc; simp [overrideUnknown] at hc
  | cons a cs ih =>
    intro hs c hc
    cases hs with
    | nil => simp [overrideUnknown] at hc
    | cons h hs =>
      rw [overrideUnknown] at hc
      rcases List.mem_cons.mp hc with rfl | hc
      · by_cases ha : a.1 = UNKNOWN
        · rw [if_pos ha]
          exact Or.inr (List.mem_cons_self _ _)
        · rw [if_neg ha]
          exact Or.inl (List.mem_cons_self _ _)
      · rcases ih hs c hc with h1 | h1
        · exact Or.inl (List.mem_cons_of_mem _ h1)
        · exact Or.inr (List.mem_cons_of_mem _ h1)

theorem classifyTypes_mem (cfg : StructConfig) (blocks : List TextBlock)
    (bms : List Bookmark) (hbm : ∀ bm ∈ bms, bm.level ≤ 3) :
    ∀ c ∈ classifyTypes cfg blocks bms,
      c.2 = typeLevel c.1 ∧ c.1 ≠ UNKNOWN := by
  have hR : ∀ d ∈ (if cfg.use_regex then
      overrideUnknown
        (if cfg.use_heuristics then
          overrideUnknown
            (if cfg.use_bookmarks ∧ bms ≠ [] then bookmarkPass bms blocks
             else blocks.map (fun _ => (UNKNOWN, 0)))
            (heuristicAll cfg blocks)
         else (if cfg.use_bookmarks ∧ bms ≠ [] then bookmarkPass bms blocks
           else blocks.map (fun _ => (UNKNOWN, 0))))
        (regexAll blocks)
      else (if cfg.use_heuristics then
        overrideUnknown
          (if cfg.use_bookmarks ∧ bms ≠ [] then bookmarkPass bms blocks
           else blocks.map (fun _ => (UNKNOWN, 0)))
          (heuristicAll cfg blocks)
        else (if cfg.use_bookmarks ∧ bms ≠ [] then bookmarkPass bms blocks
          else blocks.map (fun _ => (UNKNOWN, 0))))),
      (d.2 = typeLevel d.1 ∧ d.1 ≠ UNKNOWN) ∨ d = (UNKNOWN, 0) := by
    have hinit : ∀ d ∈ blocks.map
        (fun _ => ((UNKNOWN, 0) : TextBlockType × Nat)),
        (d.2 = typeLevel d.1 ∧ d.1 ≠ UNKNOWN) ∨ d = (UNKNOWN, 0) := by
      intro d hd
      rcases List.mem_map.mp hd with ⟨_, _, rfl⟩
      exact Or.inr rfl
    have hbmp : ∀ d ∈ bookmarkPass bms blocks,
        (d.2 = typeLevel d.1 ∧ d.1 ≠ UNKNOWN) ∨ d = (UNKNOWN, 0) := by
      intro d hd
      rcases List.mem_map.mp hd with ⟨b, _, rfl⟩
      rcases hfind : bookmarkFind bms b.page_num with _ | bm
      · exact Or.inr rfl
      · have hmem : bm ∈ bms := by
          have := List.mem_of_find?_eq_some hfind
          exact List.mem_reverse.mp this
        exact Or.inl ⟨(typeLevel_bookmark bm.level (hbm bm hmem)).symm,
          bookmarkLevelType_ne_unknown bm.level⟩
    have hheua : ∀ d ∈ heuristicAll cfg blocks,
        (d.2 = typeLevel d.1 ∧ d.1 ≠ UNKNOWN) ∨ d = (UNKNOWN, 0) := by
      intro d hd
      rcases List.mem_map.mp hd with ⟨p, _, rfl⟩
      exact Or.inl ⟨(heuristicClassify_valid cfg blocks p.1 p.2).1,
        (heuristicClassify_valid cfg blocks p.1 p.2).2⟩
    have hrega : ∀ d ∈ regexAll blocks,
        (d.2 = typeLevel d.1 ∧ d.1 ≠ UNKNOWN) ∨ d = (UNKNOWN, 0) := by
      intro d hd
      rcases List.mem_map.mp hd with ⟨b, _, rfl⟩
      exact Or.inl ⟨(regexClassify_valid b).1, (regexClassify_valid b).2⟩
    have hafterBm : ∀ d ∈ (if cfg.use_bookmarks ∧ bms ≠ [] then
        bookmarkPass bms blocks
        else blocks.map (fun _ => ((UNKNOWN, 0) : TextBlockType × Nat))),
        (d.2 = typeLevel d.1 ∧ d.1 ≠ UNKNOWN) ∨ d = (UNKNOWN, 0) := by
      intro d hd
      by_cases hc : cfg.use_bookmarks = true ∧ bms ≠ []
      · rw [if_pos hc] at hd
        exact hbmp d hd
      · rw [if_neg hc] at hd
        exact hinit d hd
    have hafterHeu : ∀ d ∈ (if cfg.use_heuristics then
        overrideUnknown
          (if cfg.use_bookmarks ∧ bms ≠ [] then bookmarkPass bms blocks
           else blocks.map (fun _ => (UNKNOWN, 0)))
          (heuristicAll cfg blocks)
        else (if cfg.use_bookmarks ∧ bms ≠ [] then bookmarkPass bms blocks
          else blocks.map (fun _ => (UNKNOWN, 0)))),
        (d.2 = typeLevel d.1 ∧ d.1 ≠ UNKNOWN) ∨ d = (UNKNOWN, 0) := by
      intro d hd
      by_cases hc : cfg.use_heuristics = true
      · rw [if_pos hc] at hd
        rcases overrideUnknown_mem _ _ d hd with h1 | h1
        · exact hafterBm d h1
        · exact hheua d h1
      · rw [if_neg hc] at hd
        exact hafterBm d hd
    intro d hd
    by_cases hc : cfg.use_regex = true
    · rw [if_pos hc] at hd
      rcases overrideUnknown_mem _ _ d hd with h1 | h1
      · exact hafterHeu d h1
      · exact hrega d h1
    · rw [if_neg hc] at hd
      exact hafterHeu d hd
  intro c hc
  simp only [classifyTypes] at hc
  rcases List.mem_map.mp hc with ⟨d, hd, rfl⟩
  rcases hR d hd with h1 | h1
  · rw [if_neg h1.2]
    exact h1
  · rw [h1]
    exact ⟨rfl, by simp⟩

theorem createStructuredAux_mem :
    ∀ (blocks : List TextBlock) (tl : List (TextBlockType × Nat))
      (par chap sect : Option String) (sb : StructuredTextBlock),
      sb ∈ createStructuredAux blocks tl par chap sect →
      ∃ t lvl, (t, lvl) ∈ tl ∧ sb.block_type = t ∧ sb.hierarchy_level = lvl := by
  intro blocks
  induction blocks with
  | nil => intro tl par chap sect sb hsb; simp [createStructuredAux] at hsb
  | cons a blocks ih =>
    intro tl par chap sect sb hsb
    cases tl with
    | nil => simp [createStructuredAux] at hsb
    | cons hd tl =>
      obtain ⟨t0, l0⟩ := hd
      rw [createStructuredAux] at hsb
      rcases List.mem_cons.mp hsb with rfl | hsb
      · exact ⟨t0, l0, List.mem_cons_self _ _, rfl, rfl⟩
      · rcases ih tl _ _ _ sb hsb with ⟨t, lvl, hmem, h1, h2⟩
        exact ⟨t, lvl, List.mem_cons_of_mem _ hmem, h1, h2⟩

theorem classifyTypes_ne_unknown (cfg : StructConfig)
    (blocks : List TextBlock) (bms : List Bookmark) :
    ∀ c ∈ classifyTypes cfg blocks bms, c.1 ≠ UNKNOWN := by
  intro c hc
  simp only [classifyTypes] at hc
  rcases List.mem_map.mp hc with ⟨d, _, rfl⟩
  by_cases hd : d.1 = UNKNOWN
  · rw [if_pos hd]
    simp
  · rw [if_neg hd]
    exact hd

/-- Claim C3 (amended): no block output by the structure phase is UNKNOWN
after finalization, under every configuration and every bookmark list; and
provided every bookmark level is at most 3, hierarchy_level equals the
fixed type→level mapping (part 0, chapter 1, section 2, subsection 3,
non-headings 0).  For a bookmark level ≥ 4 the code stores the raw level
with SUBSECTION_HEADING, breaking the mapping (see the counterexample
below). -/
theorem structure_level_mapping (cfg : StructConfig) (blocks : List TextBlock)
    (bms : List Bookmark) (now : String) :
    (∀ sb ∈ (structureRun cfg blocks bms now).1, sb.block_type ≠ UNKNOWN)
    ∧ ((∀ bm ∈ bms, bm.level ≤ 3) →
        ∀ sb ∈ (structureRun cfg blocks bms now).1,
          sb.hierarchy_level = typeLevel sb.block_type) := by
  constructor
  · intro sb hsb
    have hsb2 : sb ∈ createStructuredAux blocks (classifyTypes cfg blocks bms)
        none none none := hsb
    rcases createStructuredAux_mem blocks _ none none none sb hsb2
      with ⟨t, lvl, hmem, h1, _⟩
    rw [h1]
    exact classifyTypes_ne_unknown cfg blocks bms _ hmem
  · intro hbm sb hsb
    have hsb2 : sb ∈ createStructuredAux blocks (classifyTypes cfg blocks bms)
        none none none := hsb
    rcases createStructuredAux_mem blocks _ none none none sb hsb2
      with ⟨t, lvl, hmem, h1, h2⟩
    rcases classifyTypes_mem cfg blocks bms hbm _ hmem with ⟨h3, _⟩
    rw [h2, h1]
    exact h3

/-- Counterexample to Claim C3 as stated: a bookmark with level 4 classifies
its page's block SUBSECTION_HEADING but stores hierarchy_level 4, while the
fixed mapping demands 3. -/
theorem structure_level_mapping_cex :
    ((structureRun ({ use_heuristics := false, use_regex := false } :
          StructConfig)
        [{ content := "X", page_num := 1 }]
        [{ level := 4, page := 1, title := "T" }] "t").1.map
      (fun sb => (sb.block_type, sb.hierarchy_level)))
      = [(SUBSECTION_HEADING, 4)]
    ∧ typeLevel SUBSECTION_HEADING ≠ 4 :=
  ⟨rfl, by decide⟩

/-- Witness for the amended C3 at a concrete run with a level-2 bookmark:
both the unconditional no-UNKNOWN conjunct and, after discharging the
level-bound hypothesis, the mapping conjunct. -/
theorem structure_level_mapping_witness :
    (∀ sb ∈ (structureRun
        ({ use_heuristics := false } : StructConfig)
        [{ content := "X", page_num := 1 }]
        [{ level := 2, page := 1, title := "S" }] "t").1,
      sb.block_type ≠ UNKNOWN)
    ∧ ∀ sb ∈ (structureRun
        ({ use_heuristics := false } : StructConfig)
        [{ content := "X", page_num := 1 }]
        [{ level := 2, page := 1, title := "S" }] "t").1,
        sb.hierarchy_level = typeLevel sb.block_type :=
  ⟨(structure_level_mapping ({ use_heuristics := false } : StructConfig)
      [{ content := "X", page_num := 1 }]
      [{ level := 2, page := 1, title := "S" }] "t").1,
   (structure_level_mapping ({ use_heuristics := false } : StructConfig)
      [{ content := "X", page_num := 1 }]
      [{ level := 2, page := 1, title := "S" }] "t").2 (by decide)⟩

/-! ## Claim C5: parent-heading assignment -/

/-- Claim C5 (amended): during the hierarchy-tracking pass, a block
classified BODY_TEXT is assigned the truthy cascade
section-else-chapter-else-part as parent_heading, while HEADER and FOOTER
blocks always get parent_heading none (the code's cascade runs only for
BODY_TEXT); for all three types the part/chapter/section pointers are
passed on unchanged.  The original claim's cascade for HEADER/FOOTER is
refuted by the counterexample below. -/
theorem parent_assignment (b : TextBlock) (bs : List TextBlock)
    (t : TextBlockType) (lvl : Nat) (ts : List (TextBlockType × Nat))
    (par chap sect : Option String)
    (ht : t = BODY_TEXT ∨ t = HEADER ∨ t = FOOTER) :
    createStructuredAux (b :: bs) ((t, lvl) :: ts) par chap sect
      = { content := b.content, page_num := b.page_num, x0 := b.x0,
          y0 := b.y0, x1 := b.x1, y1 := b.y1, block_type := t,
          font_name := b.font_name, font_size := b.font_size,
          font_weight := b.font_weight, is_bold := b.is_bold,
          is_italic := b.is_italic, char_count := b.char_count,
          hierarchy_level := lvl,
          parent_heading :=
            if t = BODY_TEXT then parentCascade sect chap par else none }
        :: createStructuredAux bs ts par chap sect := by
  rcases ht with rfl | rfl | rfl <;> rfl

/-- Witness for the amended C5: a HEADER block visited while a section "S"
is open receives parent_heading none and leaves the pointers unchanged. -/
theorem parent_assignment_witness :
    createStructuredAux [{ content := "h", page_num := 1 }] [(HEADER, 0)]
      none none (some "S")
      = [{ content := "h", page_num := 1, x0 := 0, y0 := 0, x1 := 0, y1 := 0,
           block_type := HEADER, font_name := none, font_size := none,
           font_weight := none, is_bold := false, is_italic := false,
           char_count := 0, hierarchy_level := 0, parent_heading := none }] :=
  parent_assignment _ _ _ _ _ _ _ _ (Or.inr (Or.inl rfl))

/-- Counterexample to Claim C5 as stated: with a SECTION_HEADING "S"
followed by a HEADER block, the HEADER's parent_heading is none, not the
open section "S" the claim requires. -/
theorem header_parent_cex :
    (createStructuredBlocks
        [{ content := "S", page_num := 1 }, { content := "h", page_num := 1 }]
        [(SECTION_HEADING, 2), (HEADER, 0)]).map (fun sb => sb.parent_heading)
      = [none, none]
    ∧ ¬ ((createStructuredBlocks
        [{ content := "S", page_num := 1 }, { content := "h", page_num := 1 }]
        [(SECTION_HEADING, 2), (HEADER, 0)]).map (fun sb => sb.parent_heading)
      = [none, some "S"]) :=
  ⟨rfl, by decide⟩

/-! ## Claim C8: two-run determinism -/

/-- Claim C8 (amended): rerunning classification and chunking on identical
input and configuration reproduces the classified blocks and every metadata
field except `analysis_timestamp`, which records the wall clock of each run
(modelled as the explicit `now` input); the chunking phase reads no clock at
all, so its chunks and metadata are a pure function of input and
configuration.  Strict metadata identity is refuted by
the counterexample below. -/
theorem structure_determinism_mod_timestamp (cfg : StructConfig)
    (blocks : List TextBlock) (bms : List Bookmark) (t1 t2 : String) :
    (structureRun cfg blocks bms t1).1 = (structureRun cfg blocks bms t2).1
    ∧ (structureRun cfg blocks bms t1).2.total_blocks
      = (structureRun cfg blocks bms t2).2.total_blocks
    ∧ (structureRun cfg blocks bms t1).2.classified_blocks
      = (structureRun cfg blocks bms t2).2.classified_blocks
    ∧ (structureRun cfg blocks bms t1).2.parts_found
      = (structureRun cfg blocks bms t2).2.parts_found
    ∧ (structureRun cfg blocks bms t1).2.chapters_found
      = (structureRun cfg blocks bms t2).2.chapters_found
    ∧ (structureRun cfg blocks bms t1).2.sections_found
      = (structureRun cfg blocks bms t2).2.sections_found
    ∧ (structureRun cfg blocks bms t1).2.structure_method
      = (structureRun cfg blocks bms t2).2.structure_method
    ∧ (structureRun cfg blocks bms t1).2.hierarchy
      = (structureRun cfg blocks bms t2).2.hierarchy
    ∧ (structureRun cfg blocks bms t1).2.analysis_timestamp = t1
    ∧ (structureRun cfg blocks bms t2).2.analysis_timestamp = t2 :=
  ⟨rfl, rfl, rfl, rfl, rfl, rfl, rfl, rfl, rfl, rfl⟩

/-- Counterexample to Claim C8 as stated: two runs of the structure phase on
identical input at different wall-clock instants produce different metadata
(the `analysis_timestamp` field differs). -/
theorem structure_timestamp_cex :
    (structureRun ({} : StructConfig) [] [] "2024-01-01T00:00:00").2
      ≠ (structureRun ({} : StructConfig) [] [] "2024-01-01T00:00:01").2 := by
  decide

/-! ## Claim C9: the heuristic scoring example -/

theorem isHeadingType_getHeadingType (l : Nat) (hl : l ≤ 3) :
    isHeadingType (getHeadingType l) = true := by
  interval_cases l <;> rfl

/-- Claim C9: with `font_size_threshold = 14` and
`heading_isolation_threshold = 0.7`, a block with font size 18, bold,
vertically isolated and centered, outside the header/footer zone, scores
1.0 and is classified as a heading; a 12pt non-bold non-isolated block
scores below 0.7 and is classified BODY_TEXT at level 0. -/
theorem heuristic_example (cfg : StructConfig) (blocks : List TextBlock)
    (idxA idxB : Nat) (a b2 : TextBlock)
    (hthr : cfg.font_size_threshold = 14)
    (hiso : cfg.heading_isolation_threshold = 7/10)
    (haf : a.font_size = some 18) (hab : a.is_bold = true)
    (hai : isIsolated blocks idxA a = true)
    (hac : isCentered blocks a = true)
    (hahf : isHeaderOrFooter a = false)
    (hbf : b2.font_size = some 12) (hbb : b2.is_bold = false)
    (hbi : isIsolated blocks idxB b2 = false)
    (hbhf : isHeaderOrFooter b2 = false) :
    heuristicScore cfg blocks idxA a = 1
    ∧ isHeadingType (heuristicClassify cfg blocks idxA a).1 = true
    ∧ heuristicScore cfg blocks idxB b2 < 7/10
    ∧ heuristicClassify cfg blocks idxB b2 = (BODY_TEXT, 0) := by
  have hla : isLargeFont cfg a = true := by
    rw [isLargeFont, haf, hthr]
    norm_num
  have hlb : isLargeFont cfg b2 = false := by
    rw [isLargeFont, hbf, hthr]
    norm_num
  have hsA : heuristicScore cfg blocks idxA a = 1 := by
    rw [heuristicScore, hla, hab, hai, hac]
    norm_num [countTrue]
  have hsB : heuristicScore cfg blocks idxB b2 < 7/10 := by
    rw [heuristicScore, hlb, hbb, hbi]
    cases hcent : isCentered blocks b2 with
    | false => norm_num [countTrue]
    | true => norm_num [countTrue]
  refine ⟨hsA, ?_, hsB, ?_⟩
  · rw [heuristicClassify, if_neg (by simp [hahf]),
      if_pos (by rw [hiso, hsA]; norm_num)]
    exact isHeadingType_getHeadingType _ (determineHeadingLevel_le3 blocks a)
  · rw [heuristicClassify, if_neg (by simp [hbhf]),
      if_neg (by rw [hiso]; exact not_le.mpr hsB)]

/-- Witness for C9: the spec's scenario with three blocks on one 600pt-wide
page — the 18pt block (isolated by a 30pt gap) scores 1.0 and is classified
a heading; the first 12pt block (5pt from its neighbour) scores below 0.7
and is BODY_TEXT. -/
theorem heuristic_example_witness :
    heuristicScore {} [exHeadingBlock, exBodyBlockOne, exBodyBlockTwo] 0
        exHeadingBlock = 1
    ∧ isHeadingType (heuristicClassify {}
        [exHeadingBlock, exBodyBlockOne, exBodyBlockTwo] 0 exHeadingBlock).1
      = true
    ∧ heuristicScore {} [exHeadingBlock, exBodyBlockOne, exBodyBlockTwo] 1
        exBodyBlockOne < 7/10
    ∧ heuristicClassify {} [exHeadingBlock, exBodyBlockOne, exBodyBlockTwo] 1
        exBodyBlockOne = (BODY_TEXT, 0) :=
  heuristic_example {} [exHeadingBlock, exBodyBlockOne, exBodyBlockTwo] 0 1
    exHeadingBlock exBodyBlockOne rfl rfl rfl rfl
    (by norm_num [isIsolated, exHeadingBlock, exBodyBlockOne, exBodyBlockTwo])
    (by norm_num [isCentered, pageWidth, exHeadingBlock, exBodyBlockOne,
      exBodyBlockTwo])
    (by norm_num [isHeaderOrFooter, exHeadingBlock])
    rfl rfl
    (by norm_num [isIsolated, exHeadingBlock, exBodyBlockOne, exBodyBlockTwo])
    (by norm_num [isHeaderOrFooter, exBodyBlockOne])

/-! ## Claim C6: hierarchy tree attachment -/

theorem appendToLastChap_concat :
    ∀ (chs : List ChapNode) (c : ChapNode) (s : SectNode),
      appendToLastChap (chs ++ [c]) s
        = chs ++ [{ c with secs := c.secs ++ [s] }] := by
  intro chs
  induction chs with
  | nil => intro c s; rfl
  | cons a chs ih =>
    intro c s
    cases chs with
    | nil => rfl
    | cons b chs2 =>
      show a :: appendToLastChap ((b :: chs2) ++ [c]) s
          = a :: ((b :: chs2) ++ [{ c with secs := c.secs ++ [s] }])
      rw [ih c s]

theorem appendToLastChap_last (chs : List ChapNode) (sect : SectNode)
    (c : ChapNode) (h : chs.getLast? = some c) :
    ∃ c2, (appendToLastChap chs sect).getLast? = some c2
      ∧ c2.title = c.title ∧ c2.secs.getLast? = some sect := by
  rcases List.eq_nil_or_concat chs with rfl | ⟨l2, a, rfl⟩
  · simp at h
  · rw [List.concat_eq_append] at h ⊢
    rw [List.getLast?_concat] at h
    injection h with h
    subst h
    rw [appendToLastChap_concat]
    exact ⟨_, List.getLast?_concat _, rfl, List.getLast?_concat _⟩

theorem step_part (s : HierState) (b : StructuredTextBlock)
    (hbt : b.block_type = PART_HEADING) :
    stepHierarchy s b
      = { closed := s.closed ++ s.top.toList,
          top := some (.part b.content b.page_num []), chapOpen := false } := by
  simp only [stepHierarchy, hbt]

theorem step_chapter_inPart (s : HierState) (b : StructuredTextBlock)
    (hbt : b.block_type = CHAPTER_HEADING) (t0 : String) (p0 : Nat)
    (chs0 : List ChapNode) (hst : s.top = some (.part t0 p0 chs0)) :
    stepHierarchy s b
      = { closed := s.closed,
          top := some (.part t0 p0
            (chs0 ++ [⟨b.content, some b.page_num, []⟩])),
          chapOpen := true } := by
  simp only [stepHierarchy, hbt, hst]

theorem step_chapter_root (s : HierState) (b : StructuredTextBlock)
    (hbt : b.block_type = CHAPTER_HEADING)
    (hst : ∀ t0 p0 chs0, s.top ≠ some (.part t0 p0 chs0)) :
    stepHierarchy s b
      = { closed := s.closed ++ s.top.toList,
          top := some (.chapter ⟨b.content, some b.page_num, []⟩),
          chapOpen := true } := by
  rcases hx : s.top with _ | r
  · simp [stepHierarchy, hbt, hx]
  · cases r with
    | part t0 p0 chs0 => exact absurd hx (hst t0 p0 chs0)
    | chapter c0 => simp [stepHierarchy, hbt, hx]

theorem step_section_noChap_part (s : HierState) (b : StructuredTextBlock)
    (hbt : b.block_type = SECTION_HEADING) (hco : s.chapOpen = false)
    (t0 : String) (p0 : Nat) (chs0 : List ChapNode)
    (hst : s.top = some (.part t0 p0 chs0)) :
    stepHierarchy s b
      = { s with top := some (.part t0 p0
          (if chs0 = [] then
            [⟨"Unnamed Chapter", none, [⟨b.content, b.page_num⟩]⟩]
           else appendToLastChap chs0 ⟨b.content, b.page_num⟩)) } := by
  simp only [stepHierarchy, hbt, hco, hst]
  by_cases hch : chs0 = [] <;> simp [hch]

theorem step_section_noChap_noPart (s : HierState) (b : StructuredTextBlock)
    (hbt : b.block_type = SECTION_HEADING) (hco : s.chapOpen = false)
    (hst : ∀ t0 p0 chs0, s.top ≠ some (.part t0 p0 chs0)) :
    stepHierarchy s b = s := by
  rcases hx : s.top with _ | r
  · simp [stepHierarchy, hbt, hco, hx]
  · cases r with
    | part t0 p0 chs0 => exact absurd hx (hst t0 p0 chs0)
    | chapter c0 => simp [stepHierarchy, hbt, hco, hx]

theorem step_other (s : HierState) (b : StructuredTextBlock)
    (hbt : b.block_type = SUBSECTION_HEADING ∨ b.block_type = BODY_TEXT
      ∨ b.block_type = HEADER ∨ b.block_type = FOOTER
      ∨ b.block_type = UNKNOWN) :
    stepHierarchy s b = s := by
  rcases hbt with h | h | h | h | h <;> simp only [stepHierarchy, h]

theorem hierInv_init : hierInv ({} : HierState) := by
  intro _ t p chs htop
  simp at htop

theorem hierInv_step (s : HierState) (b : StructuredTextBlock)
    (h : hierInv s) : hierInv (stepHierarchy s b) := by
  cases hbt : b.block_type with
  | PART_HEADING =>
    rw [step_part s b hbt]
    intro _ t p chs htop
    simp only [Option.some.injEq, RootNode.part.injEq] at htop
    exact Or.inl htop.2.2.symm
  | CHAPTER_HEADING =>
    by_cases hpart : ∃ t0 p0 chs0, s.top = some (.part t0 p0 chs0)
    · rcases hpart with ⟨t0, p0, chs0, hst⟩
      rw [step_chapter_inPart s b hbt t0 p0 chs0 hst]
      intro hco
      simp at hco
    · rw [step_chapter_root s b hbt (by push_neg at hpart; exact hpart)]
      intro hco
      simp at hco
  | SECTION_HEADING =>
    by_cases hco : s.chapOpen = true
    · -- the open-chapter branches keep `chapOpen = true`, so the invariant
      -- hypothesis cannot hold
      intro hcf
      exfalso
      have : (stepHierarchy s b).chapOpen = true := by
        simp only [stepHierarchy, hbt, hco]
        rcases hx : s.top with _ | r
        · simpa using hco
        · cases r with
          | part t0 p0 chs0 => simpa using hco
          | chapter c0 => simpa using hco
      rw [hcf] at this
      exact Bool.false_ne_true this
    · have hco2 : s.chapOpen = false := by
        cases hx : s.chapOpen
        · rfl
        · exact absurd hx hco
      by_cases hpart : ∃ t0 p0 chs0, s.top = some (.part t0 p0 chs0)
      · rcases hpart with ⟨t0, p0, chs0, hst⟩
        rw [step_section_noChap_part s b hbt hco2 t0 p0 chs0 hst]
        intro _ t p chs htop
        simp only [Option.some.injEq, RootNode.part.injEq] at htop
        rcases htop with ⟨_, _, hchs⟩
        right
        by_cases hch : chs0 = []
        · rw [if_pos hch] at hchs
          exact ⟨_, by rw [← hchs]; rfl, rfl⟩
        · rw [if_neg hch] at hchs
          rcases h hco2 t0 p0 chs0 hst with rfl | ⟨c, hlast, htitle⟩
          · exact absurd rfl hch
          · rcases appendToLastChap_last chs0 ⟨b.content, b.page_num⟩ c hlast
              with ⟨c2, hlast2, htitle2, _⟩
            exact ⟨c2, by rw [← hchs]; exact hlast2, by rw [htitle2, htitle]⟩
      · rw [step_section_noChap_noPart s b hbt hco2
          (by push_neg at hpart; exact hpart)]
        exact h
  | SUBSECTION_HEADING =>
    rw [step_other s b (Or.inl hbt)]
    exact h
  | BODY_TEXT =>
    rw [step_other s b (Or.inr (Or.inl hbt))]
    exact h
  | HEADER =>
    rw [step_other s b (Or.inr (Or.inr (Or.inl hbt)))]
    exact h
  | FOOTER =>
    rw [step_other s b (Or.inr (Or.inr (Or.inr (Or.inl hbt))))]
    exact h
  | UNKNOWN =>
    rw [step_other s b (Or.inr (Or.inr (Or.inr (Or.inr hbt))))]
    exact h

theorem hierInv_foldl :
    ∀ (blocks : List StructuredTextBlock) (s : HierState),
      hierInv s → hierInv (blocks.foldl stepHierarchy s) := by
  intro blocks
  induction blocks with
  | nil => intro s h; exact h
  | cons b blocks ih =>
    intro s h
    exact ih _ (hierInv_step s b h)

/-- Claim C6 (amended): in the hierarchy build, (i) a SECTION_HEADING seen
while a part is open and no chapter is open attaches under the implicit
"Unnamed Chapter" inside the current part, created on demand (the part's
title, page and the enclosing root list are unchanged); (ii) a PART_HEADING
or CHAPTER_HEADING seen while no part is open is appended at the root;
(iii) a SECTION_HEADING seen with no open part and no open chapter is
dropped — not appended at root as the original claim states
(see the counterexample below) — and (iv) SUBSECTION_HEADINGs never modify the
tree. -/
theorem hierarchy_attachment (pre : List StructuredTextBlock)
    (b : StructuredTextBlock) :
    (∀ t p chs, b.block_type = SECTION_HEADING →
      (pre.foldl stepHierarchy {}).chapOpen = false →
      (pre.foldl stepHierarchy {}).top = some (.part t p chs) →
      ∃ chs2, (stepHierarchy (pre.foldl stepHierarchy {}) b).top
          = some (.part t p chs2)
        ∧ (stepHierarchy (pre.foldl stepHierarchy {}) b).closed
          = (pre.foldl stepHierarchy {}).closed
        ∧ ∃ c, chs2.getLast? = some c ∧ c.title = "Unnamed Chapter"
            ∧ c.secs.getLast? = some ⟨b.content, b.page_num⟩)
    ∧ ((b.block_type = PART_HEADING ∨ b.block_type = CHAPTER_HEADING) →
        (∀ t p chs, (pre.foldl stepHierarchy {}).top ≠ some (.part t p chs)) →
        ∃ n, rootEntries (stepHierarchy (pre.foldl stepHierarchy {}) b)
            = rootEntries (pre.foldl stepHierarchy {}) ++ [n]
          ∧ rootTitle n = b.content)
    ∧ (b.block_type = SECTION_HEADING →
        (pre.foldl stepHierarchy {}).chapOpen = false →
        (∀ t p chs, (pre.foldl stepHierarchy {}).top ≠ some (.part t p chs)) →
        stepHierarchy (pre.foldl stepHierarchy {}) b
          = pre.foldl stepHierarchy {})
    ∧ (b.block_type = SUBSECTION_HEADING →
        stepHierarchy (pre.foldl stepHierarchy {}) b
          = pre.foldl stepHierarchy {}) := by
  have hinv : hierInv (pre.foldl stepHierarchy {}) :=
    hierInv_foldl pre {} hierInv_init
  refine ⟨?_, ?_, ?_, ?_⟩
  · intro t p chs hbt hco htop
    rw [step_section_noChap_part _ b hbt hco t p chs htop]
    refine ⟨_, rfl, rfl, ?_⟩
    by_cases hch : chs = []
    · rw [if_pos hch]
      exact ⟨_, rfl, rfl, rfl⟩
    · rw [if_neg hch]
      rcases hinv hco t p chs htop with rfl | ⟨c, hlast, htitle⟩
      · exact absurd rfl hch
      · rcases appendToLastChap_last chs ⟨b.content, b.page_num⟩ c hlast
          with ⟨c2, hlast2, htitle2, hsec2⟩
        exact ⟨c2, hlast2, by rw [htitle2, htitle], hsec2⟩
  · intro hpc hnp
    rcases hpc with hbt | hbt
    · rw [step_part _ b hbt]
      refine ⟨.part b.content b.page_num [], ?_, rfl⟩
      simp [rootEntries]
    · rw [step_chapter_root _ b hbt hnp]
      refine ⟨.chapter ⟨b.content, some b.page_num, []⟩, ?_, rfl⟩
      simp [rootEntries]
  · intro hbt hco hnp
    exact step_section_noChap_noPart _ b hbt hco hnp
  · intro hbt
    exact step_other _ b (Or.inl hbt)

/-- Witness for the amended C6: after a PART_HEADING, a SECTION_HEADING
with no chapter open lands in a freshly created "Unnamed Chapter" under
that part. -/
theorem hierarchy_attachment_witness :
    ∃ chs2, (stepHierarchy
        (([{ content := "Part I: P", page_num := 1,
             block_type := PART_HEADING }] :
            List StructuredTextBlock).foldl stepHierarchy {})
        { content := "1.1 Sec", page_num := 2,
          block_type := SECTION_HEADING }).top
        = some (.part "Part I: P" 1 chs2)
      ∧ (stepHierarchy
        (([{ content := "Part I: P", page_num := 1,
             block_type := PART_HEADING }] :
            List StructuredTextBlock).foldl stepHierarchy {})
        { content := "1.1 Sec", page_num := 2,
          block_type := SECTION_HEADING }).closed
        = (([{ content := "Part I: P", page_num := 1,
                block_type := PART_HEADING }] :
            List StructuredTextBlock).foldl stepHierarchy {}).closed
      ∧ ∃ c, chs2.getLast? = some c ∧ c.title = "Unnamed Chapter"
          ∧ c.secs.getLast? = some ⟨"1.1 Sec", 2⟩ :=
  (hierarchy_attachment
    [{ content := "Part I: P", page_num := 1, block_type := PART_HEADING }]
    { content := "1.1 Sec", page_num := 2,
      block_type := SECTION_HEADING }).1 "Part I: P" 1 [] rfl rfl rfl

/-- Counterexample to Claim C6 as stated: a SECTION_HEADING encountered
with no open part (and no open chapter) is silently dropped — the built
hierarchy is empty, although the claim requires every heading seen with no
open part to be appended at the tree root. -/
theorem lone_section_root_cex :
    buildHierarchy [{ content := "1.1 Lonely", page_num := 5,
                      block_type := SECTION_HEADING,
                      hierarchy_level := 2 }] = [] := rfl

end PdfRag
